import Mathlib

set_option maxRecDepth 8000

attribute [local semireducible] Rat.add Rat.mul Rat.sub Rat.inv

/-!
Verification development for the experimental-design / metrics-recomputation
pipeline of the `analysis_asynchronous_db_read_operation` repository
(`proof_of_concept/recompute_qphh.py`, `fix_schedule_csv.py`,
`export_clean_results.py`, `generate_experimental_design.py`).

CSV cells are modelled as Lean `String`s (an absent cell is the empty
string, matching the scripts' `row.get(k) or ""` / default-`""` access
patterns).  Python `float` values are modelled exactly: parsed numerals
become rationals (`ℚ`), and the transcendental metric computations
(`math.log` / `math.exp` / `math.sqrt`) are modelled over the reals (`ℝ`).
Where the distinction between an ideal real and an IEEE-754 double is
itself the property under study (the size-label formatting), binary
doubles are modelled exactly as rationals with explicit round-to-nearest.
-/

namespace Pipeline

/-! ## Python string primitives

`str.strip()`, `str.upper()`, `str.lower()` restricted to the ASCII
strings the pipeline manipulates. -/

/-- Whitespace characters removed by Python's `str.strip()` (ASCII subset). -/
def isPySpace (c : Char) : Bool :=
  c = ' ' || c = '\t' || c = '\n' || c = '\x0d' || c = '\x0b' || c = '\x0c'

/-- Drop trailing characters satisfying `isPySpace`. -/
def dropTrailingSpaces : List Char → List Char
  | [] => []
  | c :: t =>
      let t' := dropTrailingSpaces t
      if t'.isEmpty && isPySpace c then [] else c :: t'

/-- `str.strip()` on the character list: leading then trailing whitespace removed. -/
def pyStripList (l : List Char) : List Char :=
  dropTrailingSpaces (l.dropWhile isPySpace)

/-- Python `str.strip()`. -/
def pyStrip (s : String) : String := ⟨pyStripList s.data⟩

/-- ASCII uppercase of one character (Python `str.upper()` on ASCII input). -/
def pyUpperChar (c : Char) : Char :=
  if 'a' ≤ c ∧ c ≤ 'z' then Char.ofNat (c.toNat - 32) else c

/-- Python `str.upper()` (ASCII). -/
def pyUpper (s : String) : String := ⟨s.data.map pyUpperChar⟩

/-- ASCII lowercase of one character (Python `str.lower()` on ASCII input). -/
def pyLowerChar (c : Char) : Char :=
  if 'A' ≤ c ∧ c ≤ 'Z' then Char.ofNat (c.toNat + 32) else c

/-- Python `str.lower()` (ASCII). -/
def pyLower (s : String) : String := ⟨s.data.map pyLowerChar⟩

/-- The status enum shared by both repair scripts:
`STATUS_VALUES = {"COMPLETED", "FAILED", "PENDING"}`. -/
def statusValues : List String := ["COMPLETED", "FAILED", "PENDING"]

/-! ## Python `float(...)` parsing, exactly over `ℚ`

Models the decimal-numeral grammar accepted by Python's `float`
constructor (optional sign, integer part, fractional part, exponent,
surrounding whitespace).  The special spellings `inf`/`nan`, which never
occur in the pipeline's CSV artifacts, parse as failures. -/

/-- Decimal digit test. -/
def isDigitChar (c : Char) : Bool := '0' ≤ c && c ≤ '9'

/-- Numeric value of a digit string (most significant first). -/
def digitsVal (l : List Char) : ℕ :=
  l.foldl (fun a c => 10 * a + (c.toNat - 48)) 0

/-- Split an optional leading sign, returning the sign as `1` or `-1`. -/
def splitSign : List Char → ℤ × List Char
  | '+' :: t => (1, t)
  | '-' :: t => (-1, t)
  | l => (1, l)

/-- Parse the exponent suffix (already past the `e`/`E`). -/
def parseExpPart (l : List Char) : Option ℤ :=
  let (es, l1) := splitSign l
  let (ed, l2) := l1.span isDigitChar
  if ed.isEmpty then none
  else if l2.isEmpty then some (es * (digitsVal ed : ℤ))
  else none

/-- Python `float(s)` on a decimal numeral, as an exact rational;
`none` models a raised `ValueError`. -/
def parsePyFloat (s : String) : Option ℚ :=
  let l := pyStripList s.data
  let (sgn, l1) := splitSign l
  let (ip, r1) := l1.span isDigitChar
  let (fp, r2) :=
    match r1 with
    | '.' :: t => t.span isDigitChar
    | _ => ([], r1)
  if ip.isEmpty && fp.isEmpty then none
  else
    let mantissa : ℚ := (digitsVal ip : ℚ) + mkRat (digitsVal fp) (10 ^ fp.length)
    match r2 with
    | [] => some ((sgn : ℚ) * mantissa)
    | c :: t =>
        if c = 'e' ∨ c = 'E' then
          match parseExpPart t with
          | some e =>
              some ((sgn : ℚ) * mantissa *
                (if 0 ≤ e then ((10 ^ e.toNat : ℕ) : ℚ) else mkRat 1 (10 ^ (-e).toNat)))
          | none => none
        else none

/-- Truncation toward zero, as Python's `int(float)` conversion. -/
def ratTrunc (q : ℚ) : ℤ := if q < 0 then -(⌊-q⌋) else ⌊q⌋

/-- `parse_positive_float` (recompute_qphh.py): parse, then keep only
strictly positive values. -/
def parsePositiveFloat (s : String) : Option ℚ :=
  match parsePyFloat s with
  | none => none
  | some q => if 0 < q then some q else none

/-- `to_float` (export_clean_results.py): `None`/blank/garbage become `none`. -/
def toFloat (s : String) : Option ℚ :=
  if pyStrip s = "" then none else parsePyFloat s

/-- `parse_minutes` (fix_schedule_csv.py): `None`/`""` become `none`,
otherwise `float(value)` with errors mapped to `none`. -/
def parseMinutes (s : String) : Option ℚ :=
  if s = "" then none else parsePyFloat s

end Pipeline

namespace Pipeline

/-! ## Decimal rendering helpers -/

/-- The character for a decimal digit (`0`–`9`). -/
def digitChar : ℕ → Char
  | 0 => '0' | 1 => '1' | 2 => '2' | 3 => '3' | 4 => '4'
  | 5 => '5' | 6 => '6' | 7 => '7' | 8 => '8' | _ => '9'

/-- Decimal digits with explicit fuel (structural recursion, so that
concrete instances kernel-evaluate). -/
def natToCharsAux : ℕ → ℕ → List Char
  | 0, _ => []
  | fuel + 1, n =>
      if n < 10 then [digitChar n]
      else natToCharsAux fuel (n / 10) ++ [digitChar (n % 10)]

/-- Decimal digits of a natural number, most significant first. -/
def natToChars (n : ℕ) : List Char := natToCharsAux (n + 1) n

/-- Decimal numeral of a natural number. -/
def natRepr (n : ℕ) : String := ⟨natToChars n⟩

/-- The number of decimal digits of `n` (1 for `n = 0`). -/
def numDigits (n : ℕ) : ℕ := (natToChars n).length

/-- `10 ^ e` as a rational, for an integer exponent. -/
def qPow10 (e : ℤ) : ℚ :=
  if 0 ≤ e then ((10 ^ e.toNat : ℕ) : ℚ) else mkRat 1 (10 ^ (-e).toNat)

/-- `2 ^ e` as a rational, for an integer exponent. -/
def qPow2 (e : ℤ) : ℚ :=
  if 0 ≤ e then ((2 ^ e.toNat : ℕ) : ℚ) else mkRat 1 (2 ^ (-e).toNat)

/-- `⌊log₂⌋` on naturals with explicit fuel (structural recursion). -/
def natLog2Aux : ℕ → ℕ → ℕ
  | 0, _ => 0
  | fuel + 1, n => if n < 2 then 0 else natLog2Aux fuel (n / 2) + 1

/-- `⌊log₂ n⌋` (0 for `n ∈ {0, 1}`). -/
def natLog2 (n : ℕ) : ℕ := natLog2Aux n n

/-- Round a rational to the nearest integer, ties to even (IEEE-754 default,
used by Python's float formatting). -/
def roundHalfEven (q : ℚ) : ℤ :=
  let f := ⌊q⌋
  let r := q - f
  if r < mkRat 1 2 then f
  else if mkRat 1 2 < r then f + 1
  else if f % 2 = 0 then f else f + 1

/-- Render an integer number of hundredths as a two-decimal numeral,
i.e. the result of Python's `f"{x:.2f}"`. -/
def renderCents (c : ℤ) : String :=
  (if c < 0 then "-" else "") ++ natRepr (c.natAbs / 100) ++ "." ++
    ⟨[digitChar (c.natAbs / 10 % 10), digitChar (c.natAbs % 100 % 10)]⟩

/-- Python `f"{x:.2f}"` on an exact rational value. -/
def format2dec (q : ℚ) : String := renderCents (roundHalfEven (q * 100))

/-! ## Schedule rows

One row of `experimental_design_schedule.csv` as the repair and batch
drivers see it: a dictionary of string cells.  An absent cell is the empty
string. -/

/-- A schedule CSV row (string cells; `""` models an absent/blank cell). -/
structure SchedRow where
  run_order : String := ""
  db_size_gb : String := ""
  io_method : String := ""
  replicate : String := ""
  db_name : String := ""
  cumulative_time_min : String := ""
  cumulative_time_hours : String := ""
  status : String := ""
  actual_runtime_sec : String := ""
  execution_timestamp : String := ""
  qphh_result : String := ""
  power_result : String := ""
  throughput_result : String := ""
  notes : String := ""
  deriving DecidableEq, Repr

/-- The normalized form `(row.get("status") or "").strip().upper()` used by
both repair routines before comparing against the status enum. -/
def statusNorm (s : String) : String := pyUpper (pyStrip s)

/-- `realign_row` (fix_schedule_csv.py): shift the six trailing fields of a
misaligned row right by one position and clear `cumulative_time_hours`. -/
def realignRow (row : SchedRow) : SchedRow :=
  if statusValues.contains (statusNorm row.status) then row
  else
    let candidate := pyStrip row.cumulative_time_hours
    if statusValues.contains (pyUpper candidate) then
      { row with
        cumulative_time_hours := ""
        status := candidate
        actual_runtime_sec := row.status
        execution_timestamp := row.actual_runtime_sec
        qphh_result := row.execution_timestamp
        power_result := row.qphh_result
        throughput_result :=
          if row.power_result = "" then row.throughput_result else row.power_result }
    else row

/-- `realign_row`'s boolean return value: whether the row was realigned. -/
def realignFires (row : SchedRow) : Bool :=
  !statusValues.contains (statusNorm row.status) &&
    statusValues.contains (pyUpper (pyStrip row.cumulative_time_hours))

/-- `normalize_row` (recompute_qphh.py): same trigger condition as
`realign_row`, but only `status`, `actual_runtime_sec` and
`execution_timestamp` are shifted and `cumulative_time_hours` cleared. -/
def normalizeRow (row : SchedRow) : SchedRow :=
  if statusValues.contains (statusNorm row.status) then row
  else
    let candidate := pyStrip row.cumulative_time_hours
    if statusValues.contains (pyUpper candidate) then
      { row with
        cumulative_time_hours := ""
        status := candidate
        actual_runtime_sec := row.status
        execution_timestamp := row.actual_runtime_sec }
    else row

/-- `fill_hours` (fix_schedule_csv.py): backfill an empty
`cumulative_time_hours` from `cumulative_time_min`, formatted `"%.2f"`. -/
def fillHours (row : SchedRow) : SchedRow :=
  if row.cumulative_time_hours ≠ "" then row
  else
    match parseMinutes row.cumulative_time_min with
    | none => row
    | some m => { row with cumulative_time_hours := format2dec (m * mkRat 1 60) }

/-- One pass of `repair_rows` over a single row: realignment, then hours
backfill. -/
def repairRow (row : SchedRow) : SchedRow := fillHours (realignRow row)

/-- `repair_rows` (fix_schedule_csv.py): both repair passes over every row. -/
def repairRows (rows : List SchedRow) : List SchedRow := rows.map repairRow

end Pipeline

namespace Pipeline

/-! ## Size-label formatting (`format_db_label`)

`generate_experimental_design.py` converts through `Decimal(str(x))`, i.e.
exact decimal arithmetic on the shortest decimal representation of the
input; it is modelled directly on the ideal rational value.
`export_clean_results.py` converts with binary floating point; it is
modelled with an explicit round-to-nearest-double on `ℚ`. -/

/-- `⌊log₁₀ q⌋` for a positive rational: the `e` with `10^e ≤ q < 10^(e+1)`. -/
def decExpFloor (q : ℚ) : ℤ :=
  let e0 : ℤ := (numDigits q.num.natAbs : ℤ) - (numDigits q.den : ℤ) - 1
  if qPow10 (e0 + 2) ≤ q then e0 + 2
  else if qPow10 (e0 + 1) ≤ q then e0 + 1
  else e0

/-- Python `f"{value:g}"` on an exact value: round to 6 significant digits,
strip trailing zeros, and use fixed notation for exponents in `[-4, 6)`
(scientific notation otherwise). -/
def formatG (q : ℚ) : String :=
  if q = 0 then "0"
  else
    let sgn := if q < 0 then "-" else ""
    let a := |q|
    let e0 := decExpFloor a
    let n0 := roundHalfEven (a * qPow10 (5 - e0))
    let n : ℕ := if n0 = 10 ^ 6 then 10 ^ 5 else n0.toNat
    let e : ℤ := if n0 = 10 ^ 6 then e0 + 1 else e0
    let ds := (((natToChars n).reverse.dropWhile (· = '0'))).reverse
    let k : ℤ := ds.length
    if -4 ≤ e ∧ e < 6 then
      if 0 ≤ e then
        if k ≤ e then
          sgn ++ ⟨ds⟩ ++ ⟨List.replicate (e + 1 - k).toNat '0'⟩
        else if k = e + 1 then sgn ++ ⟨ds⟩
        else sgn ++ ⟨ds.take (e.toNat + 1)⟩ ++ "." ++ ⟨ds.drop (e.toNat + 1)⟩
      else sgn ++ "0." ++ ⟨List.replicate (-(e + 1)).toNat '0'⟩ ++ ⟨ds⟩
    else
      let expPart :=
        (if e < 0 then "e-" else "e+") ++ (if e.natAbs < 10 then "0" else "") ++ natRepr e.natAbs
      match ds with
      | [] => sgn ++ "0"
      | d :: rest =>
          sgn ++ ⟨[d]⟩ ++ (if rest.isEmpty then "" else "." ++ ⟨rest⟩) ++ expPart

/-- `format_numeric` (generate_experimental_design.py): `f"{value:g}"`. -/
def formatNumeric (q : ℚ) : String := formatG q

/-- `sanitize_db_name`: `"10MB" ↦ "tpch_db_10mb"`. -/
def sanitizeDbName (label : String) : String := "tpch_db_" ++ pyLower label

/-- `⌊log₂ q⌋` for a positive rational. -/
def binExpFloor (q : ℚ) : ℤ :=
  let e0 : ℤ := (natLog2 q.num.natAbs : ℤ) - (natLog2 q.den : ℤ) - 1
  if qPow2 (e0 + 2) ≤ q then e0 + 2
  else if qPow2 (e0 + 1) ≤ q then e0 + 1
  else e0

/-- The IEEE-754 binary64 double nearest to `q` (ties to even), as an exact
rational.  Subnormal and overflow ranges do not occur for the pipeline's
database sizes and are not modelled. -/
def doubleRound (q : ℚ) : ℚ :=
  if q = 0 then 0
  else
    let s : ℚ := if q < 0 then -1 else 1
    let a := |q|
    let e := binExpFloor a
    s * (roundHalfEven (a * qPow2 (52 - e)) : ℚ) * qPow2 (e - 52)

/-- `format_db_label` (generate_experimental_design.py): the comparison
with 1, the `× 1000` megabyte conversion and the `to_integral` check are
performed in exact decimal arithmetic (`Decimal(str(x))` — the `ℚ`
argument is the exact decimal value that `str` on the input double
round-trips to); an integral value renders as an exact `int`, a
non-integral one is cast back to `float` (the nearest binary double)
before `%g` rendering. -/
def formatDbLabel (q : ℚ) : String :=
  if 1 ≤ q then
    (if q.den = 1 then formatNumeric q else formatNumeric (doubleRound q)) ++ "GB"
  else
    let mb := q * 1000
    (if mb.den = 1 then formatNumeric mb else formatNumeric (doubleRound mb)) ++ "MB"

/-- The exact value of the Python float product `float(x) * 1000` — the
sub-GB megabyte conversion performed by `format_db_label`
(export_clean_results.py) in binary floating point. -/
def exportMbDouble (x : ℚ) : ℚ := doubleRound (doubleRound x * 1000)

/-- `format_db_label` (export_clean_results.py): the float-arithmetic
variant, applied to the double nearest the ideal input value. -/
def exportDbLabel (x : ℚ) : String :=
  let d := doubleRound x
  if 1 ≤ d then formatG d ++ "GB"
  else formatG (doubleRound (d * 1000)) ++ "MB"

end Pipeline

namespace Pipeline

/-! ## Raw result artifacts and the Metrics Engine

A raw result CSV row (complete / refresh / interval artifacts).  The
engine's validation pipeline (file presence, row filtering, timing
collection, cardinality checks, interval parsing) is computable; the
geometric-mean / square-root arithmetic, performed by Python in `float`,
is modelled over `ℝ`. -/

/-- A raw result CSV row; `""` models an absent/blank cell. -/
structure CsvRow where
  test_type : String := ""
  stream_id : String := ""
  execution_time_seconds : String := ""
  measurement_interval_seconds : String := ""
  stream_count : String := ""
  deriving DecidableEq, Repr

/-- The complete-artifact filter (recompute_qphh.py, lines 113–118):
`test_type.strip().upper() == "POWER" and stream_id.strip() == "0"`. -/
def isPowerRowComplete (r : CsvRow) : Bool :=
  pyUpper (pyStrip r.test_type) = "POWER" && pyStrip r.stream_id = "0"

/-- The refresh-artifact filter (lines 127–132): as above but with
`stream_id.strip().upper()`. -/
def isPowerRowRefresh (r : CsvRow) : Bool :=
  pyUpper (pyStrip r.test_type) = "POWER" && pyUpper (pyStrip r.stream_id) = "0"

/-- The positive-parseable timings of a row list, in order (the `times`
list built by `collect_times`). -/
def collectedTimes (rows : List CsvRow) : List ℚ :=
  rows.filterMap (fun r => parsePositiveFloat r.execution_time_seconds)

/-- `collect_times` (recompute_qphh.py): gather positive-parseable timings
and require exactly `expected` of them. -/
def collectTimes (rows : List CsvRow) (expected : ℕ) : Option (List ℚ) :=
  let times := collectedTimes rows
  if times.length ≠ expected then none else some times

/-- The first interval row tagged `test_type == "THROUGHPUT"` (after
strip/upper), as selected by recompute_qphh.py lines 140–147. -/
def findThroughputRow (rows : List CsvRow) : Option CsvRow :=
  rows.find? (fun r => pyUpper (pyStrip r.test_type) = "THROUGHPUT")

/-- The validated data extracted by `compute_metrics` before the metric
arithmetic: the 22+2 timings, the measurement interval and the stream
count. -/
structure MetricsData where
  powerTimes : List ℚ
  refreshTimes : List ℚ
  measurement : ℚ
  streamCount : ℤ
  deriving DecidableEq, Repr

/-- `compute_metrics` (recompute_qphh.py, lines 102–161): every check up to
and including the stream-count validation, with the source's failure
reasons.  `none` artifact contents model a missing file
(`Path.exists()` false). -/
def computeMetricsData (complete refresh interval : Option (List CsvRow)) :
    Except String MetricsData :=
  match complete with
  | none => .error "missing complete CSV"
  | some completeRows =>
    match refresh with
    | none => .error "missing refresh CSV"
    | some refreshRows =>
      match interval with
      | none => .error "missing interval CSV"
      | some intervalRows =>
        match collectTimes (completeRows.filter isPowerRowComplete) 22 with
        | none => .error "expected 22 POWER stream=0 query timings"
        | some powerTimes =>
          match collectTimes (refreshRows.filter isPowerRowRefresh) 2 with
          | none => .error "expected 2 POWER refresh timings"
          | some refreshTimes =>
            match findThroughputRow intervalRows with
            | none => .error "missing THROUGHPUT interval entry"
            | some intervalRow =>
              match parsePositiveFloat intervalRow.measurement_interval_seconds with
              | none => .error "invalid measurement interval"
              | some measurement =>
                match parsePyFloat intervalRow.stream_count with
                | none => .error "invalid stream count"
                | some scq =>
                  if ratTrunc scq ≤ 0 then .error "stream count must be positive"
                  else .ok ⟨powerTimes, refreshTimes, measurement, ratTrunc scq⟩

/-- Geometric mean of the 24 POWER timings, computed as in the source:
`exp(sum-of-logs / 24.0)`. -/
noncomputable def geomMean24 (ts : List ℚ) : ℝ :=
  Real.exp ((ts.map (fun t => Real.log (t : ℝ))).sum / 24)

/-- `power_metric = (3600.0 * scale_factor) / geom_mean`. -/
noncomputable def powerMetricR (sf : ℚ) (ts : List ℚ) : ℝ :=
  3600 * (sf : ℝ) / geomMean24 ts

/-- `throughput_metric = (stream_count * 22 * 3600.0) / measurement`. -/
noncomputable def throughputMetricR (streamCount : ℤ) (measurement : ℚ) : ℝ :=
  ((streamCount : ℝ) * 22 * 3600) / (measurement : ℝ)

/-- The `MetricComputation` dataclass. -/
structure MetricComputation where
  qphh : ℝ
  power : ℝ
  throughput : ℝ

open Classical in
/-- `compute_metrics` (recompute_qphh.py): the full engine.  Success is
`.ok`; every failure is `.error` with the source's (non-empty) skip
reason. -/
noncomputable def computeMetrics (complete refresh interval : Option (List CsvRow))
    (sf : ℚ) : Except String MetricComputation :=
  match computeMetricsData complete refresh interval with
  | .error e => .error e
  | .ok d =>
      let pm := powerMetricR sf (d.powerTimes ++ d.refreshTimes)
      let tm := throughputMetricR d.streamCount d.measurement
      if pm ≤ 0 ∨ tm ≤ 0 then .error "non-positive power or throughput metric"
      else .ok ⟨Real.sqrt (pm * tm), pm, tm⟩

/-! ## The export driver's metric functions (export_clean_results.py) -/

/-- The export power filter (lines 113, 117): `test_type.upper() == "POWER"
and stream_id == "0"` — no stripping. -/
def exportPowerPred (r : CsvRow) : Bool :=
  pyUpper r.test_type = "POWER" && r.stream_id = "0"

/-- `collect_times` (export_clean_results.py): timings of rows matching the
predicate whose `execution_time_seconds` is truthy and positive. -/
def collectTimesExport (rows : List CsvRow) (pred : CsvRow → Bool) : List ℚ :=
  rows.filterMap (fun r =>
    if pred r then
      match toFloat r.execution_time_seconds with
      | some t => if 0 < t then some t else none
      | none => none
    else none)

open Classical in
/-- `calculate_power_metric` (export_clean_results.py). -/
noncomputable def calculatePowerMetric (complete refresh : List CsvRow) (sf : ℚ) :
    Option ℝ :=
  let power_times := collectTimesExport complete exportPowerPred
  let refresh_times := collectTimesExport refresh exportPowerPred
  if power_times.length ≠ 22 ∨ refresh_times.length ≠ 2 then none
  else
    let g := geomMean24 (power_times ++ refresh_times)
    if g ≤ 0 then none else some (3600 * (sf : ℝ) / g)

/-- The export throughput row filter (line 133): `test_type.upper() ==
"THROUGHPUT"` — no stripping. -/
def exportThroughputPred (r : CsvRow) : Bool :=
  pyUpper r.test_type = "THROUGHPUT"

/-- `calculate_throughput_metric` (export_clean_results.py): note the final
`* scale_factor` multiplication, absent from recompute_qphh.py.  All
arithmetic here is rational-exact in the model. -/
def calculateThroughputMetric (rows : List CsvRow) (sf : ℚ) : Option ℚ :=
  match rows.find? exportThroughputPred with
  | none => none
  | some row =>
      match toFloat row.measurement_interval_seconds, toFloat row.stream_count with
      | some m, some s =>
          if m ≤ 0 ∨ s ≤ 0 then none else some ((s * 22 * 3600) / m * sf)
      | _, _ => none

/-- `calculate_metrics` (export_clean_results.py): requires all three
artifacts present. -/
noncomputable def calculateMetrics
    (complete refresh interval : Option (List CsvRow)) (sf : ℚ) :
    Option ℝ × Option ℚ :=
  match complete, refresh, interval with
  | some c, some r, some i => (calculatePowerMetric c r sf, calculateThroughputMetric i sf)
  | _, _, _ => (none, none)

end Pipeline

namespace Pipeline

/-! ## Real-valued output formatting -/

open Classical in
/-- Round a real to the nearest integer, ties to even. -/
noncomputable def roundHalfEvenR (x : ℝ) : ℤ :=
  let f := ⌊x⌋
  let r := x - f
  if r < 1/2 then f
  else if 1/2 < r then f + 1
  else if f % 2 = 0 then f else f + 1

/-- `format_metric` (recompute_qphh.py): `f"{value:.2f}"` on the computed
real value. -/
noncomputable def formatMetric (x : ℝ) : String := renderCents (roundHalfEvenR (x * 100))

/-- `format_number` (export_clean_results.py) with the default 2 decimals:
`""` for `None`. -/
noncomputable def formatNumber (x : Option ℝ) : String :=
  match x with
  | none => ""
  | some v => formatMetric v

/-- `format_number(·, decimals=3)` on an exact rational (used for the
`database_size_gb` display column). -/
def format3dec (q : ℚ) : String :=
  let c := roundHalfEven (q * 1000)
  (if c < 0 then "-" else "") ++ natRepr (c.natAbs / 1000) ++ "." ++
    ⟨[digitChar (c.natAbs / 100 % 10), digitChar (c.natAbs / 10 % 10), digitChar (c.natAbs % 10)]⟩

/-! ## The recompute driver (recompute_qphh.py, `recompute`)

The filesystem is abstracted as a partial map from file names to CSV
contents (`none` = the file does not exist); `build_artifacts` produces
the three file names from the row's identifying fields. -/

/-- The filename stem `run{order}_{size}gb_{method}_rep{replicate}` built by
`build_artifacts`. -/
def artifactStem (row : SchedRow) : String :=
  "run" ++ pyStrip row.run_order ++ "_" ++ pyStrip row.db_size_gb ++ "gb_" ++
    pyStrip row.io_method ++ "_rep" ++ pyStrip row.replicate

/-- One iteration of the recompute loop (lines 216–233): normalize the row,
derive artifacts, parse the scale factor, run the Metrics Engine, and on
success overwrite the three metric fields with freshly formatted values.
Returns the updated row and `some reason` on failure, `none` on success. -/
noncomputable def processRow (fs : String → Option (List CsvRow)) (row : SchedRow) :
    SchedRow × Option String :=
  let row1 := normalizeRow row
  let stem := artifactStem row1
  match parsePyFloat row1.db_size_gb with
  | none => (row1, some "invalid scale factor")
  | some sf =>
      match computeMetrics (fs (stem ++ "_complete.csv")) (fs (stem ++ "_refresh.csv"))
          (fs (stem ++ "_interval.csv")) sf with
      | .error reason => (row1, some reason)
      | .ok m =>
          ({ row1 with
              qphh_result := formatMetric m.qphh
              power_result := formatMetric m.power
              throughput_result := formatMetric m.throughput }, none)

/-- All rows processed by the recompute loop. -/
noncomputable def processedRows (fs : String → Option (List CsvRow))
    (rows : List SchedRow) : List (SchedRow × Option String) :=
  rows.map (processRow fs)

/-- The `successes` tally of the recompute loop. -/
noncomputable def successCount (fs : String → Option (List CsvRow))
    (rows : List SchedRow) : ℕ :=
  (processedRows fs rows).countP (fun p => p.2.isNone)

/-- The `failures` list of the recompute loop (the per-row reasons). -/
noncomputable def failureReasons (fs : String → Option (List CsvRow))
    (rows : List SchedRow) : List String :=
  (processedRows fs rows).filterMap (·.2)

/-- `recompute` (recompute_qphh.py, lines 196–252): the driver's exit code.
`schedule = none` models a missing schedule file, `resultsDirExists`
models the results-directory check; the dry-run flag only suppresses the
file rewrite and does not affect the exit code. -/
noncomputable def recompute (schedule : Option (List SchedRow))
    (resultsDirExists : Bool) (fs : String → Option (List CsvRow)) : ℤ :=
  match schedule with
  | none => 1
  | some rows =>
      if !resultsDirExists then 1
      else if rows.isEmpty then 0
      else if (failureReasons fs rows).isEmpty then 0
      else if successCount fs rows = 0 then 1
      else 2

/-! ## The export driver (export_clean_results.py, `summarize_runs`)

The Artifact Locator's glob resolution is abstracted as a function from a
schedule row to the three located artifact contents. -/

/-- One row of the cleaned export CSV.  `run_number`/`replicate` are
`Option ℤ` — `none` models the uncaught `ValueError` Python would raise
on an unparseable cell. -/
structure CleanRow where
  run_number : Option ℤ
  io_method : String
  replicate : Option ℤ
  database_size_gb : String
  database_size_label : String
  database_name : String
  status : String
  runtime_seconds : String
  executed_at : String
  qphh_metric : String
  power_metric : String
  throughput_metric : String
  notes : String
  deriving DecidableEq

/-- The body of the `summarize_runs` loop for one schedule row: existing
`power_result`/`throughput_result` values are used when parseable, and the
Metrics Engine is consulted only for the missing ones. -/
noncomputable def exportRow
    (locate : SchedRow → Option (List CsvRow) × Option (List CsvRow) × Option (List CsvRow))
    (row : SchedRow) : CleanRow :=
  let db_size : ℚ := (toFloat row.db_size_gb).getD 0
  let qphh := toFloat row.qphh_result
  let files := locate row
  let power := toFloat row.power_result
  let throughput := toFloat row.throughput_result
  let powerR : Option ℝ := power.map (fun q => (q : ℝ))
  let throughputR : Option ℝ := throughput.map (fun q => (q : ℝ))
  let metrics :=
    if power.isNone || throughput.isNone then
      let cm := calculateMetrics files.1 files.2.1 files.2.2 (if db_size = 0 then 1 else db_size)
      (powerR.orElse (fun _ => cm.1), throughputR.orElse (fun _ => cm.2.map (fun q => (q : ℝ))))
    else (powerR, throughputR)
  { run_number := (parsePyFloat row.run_order).map ratTrunc
    io_method := row.io_method
    replicate := (parsePyFloat row.replicate).map ratTrunc
    database_size_gb := format3dec db_size
    database_size_label := exportDbLabel db_size
    database_name := row.db_name
    status := pyUpper (pyStrip row.status)
    runtime_seconds := row.actual_runtime_sec
    executed_at := row.execution_timestamp
    qphh_metric := formatNumber (qphh.map (fun q => (q : ℝ)))
    power_metric := formatNumber metrics.1
    throughput_metric := formatNumber metrics.2
    notes := pyStrip row.notes }

/-- `summarize_runs`: the status filter followed by the per-row export. -/
noncomputable def summarizeRuns
    (locate : SchedRow → Option (List CsvRow) × Option (List CsvRow) × Option (List CsvRow))
    (includeNonCompleted : Bool) (rows : List SchedRow) : List CleanRow :=
  (rows.filter (fun row =>
    includeNonCompleted || pyUpper (pyStrip row.status) = "COMPLETED")).map (exportRow locate)

end Pipeline

namespace Pipeline

/-! ## The Design Generator (generate_experimental_design.py)

`numpy`'s seeded global generator is abstracted as a deterministic state
machine with a polymorphic list-shuffling operation; `np.random.seed`
becomes an initial state.  The generator's output and the sequence of
shuffle requests it issues are modelled explicitly. -/

/-- One treatment row built by `generate_treatment_combinations`. -/
structure Treatment where
  db_size_gb : ℚ
  db_name : String
  io_method : String
  replicate : ℕ
  treatment_id : String
  deriving DecidableEq, Repr

/-- `generate_treatment_combinations`: the full cross product, sizes
outermost, replicates numbered `1..replicates` innermost. -/
def generateTreatmentCombinations (ioMethods : List String) (dbSizes : List ℚ)
    (replicates : ℕ) : List Treatment :=
  dbSizes.flatMap (fun d =>
    let label := formatDbLabel d
    let name := sanitizeDbName label
    ioMethods.flatMap (fun io =>
      (List.range replicates).map (fun k =>
        ⟨d, name, io, k + 1, label ++ "_" ++ io⟩)))

/-- A deterministic pseudo-random generator: a state `σ` with an in-place
list shuffle (`np.random.shuffle` / `DataFrame.sample(frac=1.0)`), both of
which draw from the same seeded global state. -/
structure Rng (σ : Type) : Type 1 where
  shuffle : {α : Type} → σ → List α → List α × σ

/-- A well-behaved generator: every shuffle returns a permutation of its
input. -/
def Rng.Lawful {σ : Type} (R : Rng σ) : Prop :=
  ∀ (α : Type) (s : σ) (l : List α), (R.shuffle s l).1.Perm l

/-- One recorded pseudo-random draw of the RCBD generator: either the
block-order shuffle of the block ids, or a within-block shuffle of a
block's treatments. -/
inductive RngCall where
  | blockOrder (ids : List ℚ)
  | withinBlock (blockData : List Treatment)
  deriving DecidableEq

/-- `pandas.unique` order-preserving deduplication (first occurrence kept). -/
def uniqueKeepFirst (seen : List ℚ) : List ℚ → List ℚ
  | [] => []
  | x :: t => if x ∈ seen then uniqueKeepFirst seen t else x :: uniqueKeepFirst (x :: seen) t

/-- A treatment enriched with its `block_id` label. -/
abbrev BlockedTreatment := Treatment × String

/-- The block loop of `generate_rcbd_schedule` (lines 132–143): for each
block value in the (already shuffled) order, filter the block's
treatments, shuffle them, and attach `Block{num}_{label}`.  Also records
the shuffle requests issued, in order. -/
def rcbdBlocks {σ : Type} (R : Rng σ) (treatments : List Treatment) :
    List ℚ → σ → ℕ → List BlockedTreatment × σ × List RngCall
  | [], s, _ => ([], s, [])
  | b :: rest, s, num =>
      let blockData := treatments.filter (fun t => t.db_size_gb = b)
      let (shuffled, s1) := R.shuffle s blockData
      let labeled := shuffled.map (fun t =>
        (t, "Block" ++ natRepr num ++ "_" ++ formatDbLabel b))
      let (more, s2, trace) := rcbdBlocks R treatments rest s1 (num + 1)
      (labeled ++ more, s2, .withinBlock blockData :: trace)

/-- One row of the generated RCBD schedule. -/
structure RcbdRow where
  run_order : ℕ
  treatment : Treatment
  block_id : String
  design_type : String
  deriving DecidableEq

/-- `schedule.insert(0, 'run_order', range(1, len+1))` plus the constant
`design_type` column. -/
def addRunOrder (n : ℕ) : List BlockedTreatment → List RcbdRow
  | [] => []
  | (t, b) :: rest => ⟨n, t, b, "RCBD"⟩ :: addRunOrder (n + 1) rest

/-- `generate_rcbd_schedule` (lines 116–150): block ids in first-occurrence
order, block-order shuffle, per-block shuffles, concatenation, run-order
assignment.  The third component is the recorded sequence of shuffle
requests (instrumentation; it does not influence the schedule). -/
def generateRcbdSchedule {σ : Type} (R : Rng σ) (treatments : List Treatment)
    (s0 : σ) : List RcbdRow × σ × List RngCall :=
  let blockIds := uniqueKeepFirst [] (treatments.map (·.db_size_gb))
  let (shuffledIds, s1) := R.shuffle s0 blockIds
  let (blocked, s2, trace) := rcbdBlocks R treatments shuffledIds s1 1
  (addRunOrder 1 blocked, s2, .blockOrder blockIds :: trace)

/-- One fully populated schedule row after `add_execution_metadata`:
the timing estimates, `status = PENDING`, and empty result placeholders
(`np.nan` / `''` cells are all blank in CSV output). -/
structure FullScheduleRow where
  row : RcbdRow
  estimated_runtime_min : ℕ
  cooldown_min : ℕ
  cumulative_time_min : ℕ
  cumulative_time_hours : ℚ
  status : String
  actual_runtime_sec : String
  execution_timestamp : String
  qphh_result : String
  power_result : String
  throughput_result : String
  notes : String
  deriving DecidableEq

/-- `add_execution_metadata` (lines 176–200). -/
def addExecutionMetadata (schedule : List RcbdRow) (runtimePerRun cooldown : ℕ) :
    List FullScheduleRow :=
  schedule.map (fun r =>
    { row := r
      estimated_runtime_min := runtimePerRun
      cooldown_min := cooldown
      cumulative_time_min := r.run_order * (runtimePerRun + cooldown)
      cumulative_time_hours := (r.run_order * (runtimePerRun + cooldown) : ℚ) / 60
      status := "PENDING"
      actual_runtime_sec := ""
      execution_timestamp := ""
      qphh_result := ""
      power_result := ""
      throughput_result := ""
      notes := "" })

/-- The full generation pipeline invoked by `main`: treatments, RCBD
schedule, execution metadata.  Returns the schedule and the recorded
shuffle requests. -/
def generateSchedule {σ : Type} (R : Rng σ) (init : ℤ → σ) (seed : ℤ)
    (ioMethods : List String) (dbSizes : List ℚ) (replicates : ℕ)
    (runtimePerRun cooldown : ℕ) : List FullScheduleRow × List RngCall :=
  let treatments := generateTreatmentCombinations ioMethods dbSizes replicates
  let (rows, _, trace) := generateRcbdSchedule R treatments (init seed)
  (addExecutionMetadata rows runtimePerRun cooldown, trace)

end Pipeline

namespace Pipeline

/-! ## Concrete fixtures used by witnesses and counterexamples -/

/-- A misaligned row whose six trailing fields all differ. -/
def mixedMisalignedRow : SchedRow :=
  { status := "", cumulative_time_hours := "COMPLETED", actual_runtime_sec := "12.5",
    execution_timestamp := "2024-01-01T00:00:00", qphh_result := "101.00",
    power_result := "102.00", throughput_result := "103.00" }

/-- A valid POWER timing row of a complete/refresh artifact. -/
def goodPowerRow : CsvRow :=
  { test_type := "POWER", stream_id := "0", execution_time_seconds := "1" }

/-- A POWER-tagged row with a non-positive timing. -/
def badPowerRow : CsvRow :=
  { test_type := "POWER", stream_id := "0", execution_time_seconds := "-1" }

/-- A complete artifact with 23 POWER/stream-0 rows, one of which has a
non-positive timing. -/
def exCompleteRows : List CsvRow := List.replicate 22 goodPowerRow ++ [badPowerRow]

/-- A refresh artifact with exactly 2 valid POWER refresh timings. -/
def exRefreshRows : List CsvRow := List.replicate 2 goodPowerRow

/-- An interval artifact with one valid THROUGHPUT row. -/
def exIntervalRows : List CsvRow :=
  [{ test_type := "THROUGHPUT", measurement_interval_seconds := "60", stream_count := "1" }]

/-- A filesystem holding exactly the three artifacts of
`run1_1gb_sync_rep1`. -/
def exFs : String → Option (List CsvRow) := fun p =>
  if p = "run1_1gb_sync_rep1_complete.csv" then some exCompleteRows
  else if p = "run1_1gb_sync_rep1_refresh.csv" then some exRefreshRows
  else if p = "run1_1gb_sync_rep1_interval.csv" then some exIntervalRows
  else none

/-- A fully artifacted schedule row whose metric fields already hold
values. -/
def exSchedRow : SchedRow :=
  { run_order := "1", db_size_gb := "1", io_method := "sync", replicate := "1",
    status := "COMPLETED", qphh_result := "999.00", power_result := "998.00",
    throughput_result := "997.00" }

/-- `exSchedRow` with different pre-existing metric values. -/
def exSchedRowAlt : SchedRow :=
  { exSchedRow with
    qphh_result := "123.00"
    power_result := "124.00"
    throughput_result := "125.00" }

/-- An interval artifact used to expose the export driver's extra
scale-factor multiplication. -/
def c3IntervalRows : List CsvRow :=
  [{ test_type := "THROUGHPUT", measurement_interval_seconds := "3600", stream_count := "1" }]

/-- The identity "shuffle": a degenerate but lawful pseudo-random
generator. -/
def idRng : Rng Unit := ⟨fun s l => (l, s)⟩

end Pipeline

namespace Pipeline

/-! ## C2: the realignment shift -/

/-- **C2.** For every schedule row whose `status` column does not hold one of
{COMPLETED, FAILED, PENDING} (after strip/upper) but whose
`cumulative_time_hours` column does, Schedule Repair's realignment shifts
the six affected fields right by one position — `cumulative_time_hours`
becomes the new `status` (stripped), old `status` becomes
`actual_runtime_sec`, old `actual_runtime_sec` becomes
`execution_timestamp`, old `execution_timestamp` becomes `qphh_result`,
old `qphh_result` becomes `power_result`, old `power_result` becomes
`throughput_result` (falling back to the existing `throughput_result`
when the shifted-in value is empty) — and clears `cumulative_time_hours`;
in particular a row with `"COMPLETED"` in `cumulative_time_hours` ends
with `status = "COMPLETED"`. -/
theorem c2_realign_row_shifts (row : SchedRow)
    (h1 : ¬ statusValues.contains (statusNorm row.status))
    (h2 : statusValues.contains (pyUpper (pyStrip row.cumulative_time_hours))) :
    realignRow row =
      { row with
        cumulative_time_hours := ""
        status := pyStrip row.cumulative_time_hours
        actual_runtime_sec := row.status
        execution_timestamp := row.actual_runtime_sec
        qphh_result := row.execution_timestamp
        power_result := row.qphh_result
        throughput_result :=
          if row.power_result = "" then row.throughput_result else row.power_result } ∧
    (row.cumulative_time_hours = "COMPLETED" → (realignRow row).status = "COMPLETED") := by
  have e : realignRow row =
      { row with
        cumulative_time_hours := ""
        status := pyStrip row.cumulative_time_hours
        actual_runtime_sec := row.status
        execution_timestamp := row.actual_runtime_sec
        qphh_result := row.execution_timestamp
        power_result := row.qphh_result
        throughput_result :=
          if row.power_result = "" then row.throughput_result else row.power_result } := by
    simp only [realignRow]
    rw [if_neg h1, if_pos h2]
  refine ⟨e, fun hc => ?_⟩
  rw [e]
  simp only [hc]
  decide

/-- Witness for C2 at a concrete misaligned row. -/
theorem c2_realign_row_shifts_witness :
    realignRow mixedMisalignedRow =
      { mixedMisalignedRow with
        cumulative_time_hours := ""
        status := pyStrip mixedMisalignedRow.cumulative_time_hours
        actual_runtime_sec := mixedMisalignedRow.status
        execution_timestamp := mixedMisalignedRow.actual_runtime_sec
        qphh_result := mixedMisalignedRow.execution_timestamp
        power_result := mixedMisalignedRow.qphh_result
        throughput_result :=
          if mixedMisalignedRow.power_result = "" then mixedMisalignedRow.throughput_result
          else mixedMisalignedRow.power_result } ∧
    (mixedMisalignedRow.cumulative_time_hours = "COMPLETED" →
      (realignRow mixedMisalignedRow).status = "COMPLETED") :=
  c2_realign_row_shifts mixedMisalignedRow (by decide) (by decide)

/-! ## C4: `normalize_row` versus `realign_row` -/

/-- **C4 counterexample.** On a misaligned row with six pairwise different
trailing fields, the recompute driver's `normalize_row` and Schedule
Repair's `realign_row` produce different rows, refuting the claim that
they perform the same transformation. -/
theorem c4_normalize_ne_realign :
    realignFires mixedMisalignedRow = true ∧
      normalizeRow mixedMisalignedRow ≠ realignRow mixedMisalignedRow := by
  decide

/-- **C4 (amended).** `normalize_row` performs the same trigger test and the
same realignment of `status`, `actual_runtime_sec`, `execution_timestamp`
and `cumulative_time_hours` as `realign_row`, and both have no effect on
already-aligned rows; but `normalize_row` always leaves `qphh_result`,
`power_result` and `throughput_result` unchanged, whereas `realign_row`
shifts them. -/
theorem c4_normalize_partial_shift (row : SchedRow) :
    (statusValues.contains (statusNorm row.status) →
      normalizeRow row = row ∧ realignRow row = row) ∧
    ((normalizeRow row).status = (realignRow row).status ∧
      (normalizeRow row).actual_runtime_sec = (realignRow row).actual_runtime_sec ∧
      (normalizeRow row).execution_timestamp = (realignRow row).execution_timestamp ∧
      (normalizeRow row).cumulative_time_hours = (realignRow row).cumulative_time_hours) ∧
    ((normalizeRow row).qphh_result = row.qphh_result ∧
      (normalizeRow row).power_result = row.power_result ∧
      (normalizeRow row).throughput_result = row.throughput_result) := by
  by_cases h1 : statusNorm row.status ∈ statusValues
  · simp [normalizeRow, realignRow, h1]
  · by_cases h2 : pyUpper (pyStrip row.cumulative_time_hours) ∈ statusValues
    · simp [normalizeRow, realignRow, h1, h2]
    · simp [normalizeRow, realignRow, h1, h2]

end Pipeline

namespace Pipeline

/-! ## C7: size-label formatting -/

/-- **C7 counterexample.** The export driver's `format_db_label` performs the
sub-GB megabyte conversion in binary floating point, not exact decimal
arithmetic: at the size 0.0001 GB (a size below 1 GB), the computed
`db_size_gb * 1000` value differs from the exact decimal result 0.1. -/
theorem c7_export_mb_inexact :
    (mkRat 1 10000 < 1) ∧ exportMbDouble (mkRat 1 10000) ≠ 1000 * mkRat 1 10000 := by
  decide

/-- **C7 (amended).** Both size-label formatters produce the example labels
(`0.01 ↦ 10MB`, `1 ↦ 1GB`, `10 ↦ 10GB`, `2.5 ↦ 2.5GB`, `0.1 ↦ 100MB`).
The generator's conversion and integrality check are exact decimal
arithmetic; the export variant's `× 1000` conversion is binary floating
point and is not exact (e.g. at 0.0001 GB), its rounding error merely
hidden at the example inputs by the 6-significant-digit `%g` rendering. -/
theorem c7_format_db_label_examples :
    formatDbLabel (mkRat 1 100) = "10MB" ∧ formatDbLabel 1 = "1GB" ∧
    formatDbLabel 10 = "10GB" ∧ formatDbLabel (mkRat 5 2) = "2.5GB" ∧
    formatDbLabel (mkRat 1 10) = "100MB" ∧
    exportDbLabel (mkRat 1 100) = "10MB" ∧ exportDbLabel 1 = "1GB" ∧
    exportDbLabel 10 = "10GB" ∧ exportDbLabel (mkRat 5 2) = "2.5GB" ∧
    exportDbLabel (mkRat 1 10) = "100MB" ∧
    exportMbDouble (mkRat 1 10000) * 10000 ≠ 1000 := by
  decide

end Pipeline

namespace Pipeline

/-! ## String-normalization lemmas -/

lemma dropWhile_isPySpace_eq_self {l : List Char}
    (h : ∀ c, l.head? = some c → isPySpace c = false) :
    l.dropWhile isPySpace = l := by
  cases l with
  | nil => rfl
  | cons a t => simp [List.dropWhile_cons, h a rfl]

lemma head?_dropWhile_isPySpace :
    ∀ {l : List Char} {c}, (l.dropWhile isPySpace).head? = some c → isPySpace c = false := by
  intro l
  induction l with
  | nil => intro c h; simp at h
  | cons a t ih =>
      intro c h
      cases ha : isPySpace a with
      | true => rw [List.dropWhile_cons, if_pos ha] at h; exact ih h
      | false =>
          rw [List.dropWhile_cons, if_neg (by simp [ha])] at h
          simp at h
          rw [← h]; exact ha

lemma dropTrailingSpaces_head? (l : List Char) :
    dropTrailingSpaces l = [] ∨ (dropTrailingSpaces l).head? = l.head? := by
  cases l with
  | nil => left; rfl
  | cons a t =>
      simp only [dropTrailingSpaces]
      split
      · left; rfl
      · right; rfl

lemma dropTrailingSpaces_idem : ∀ l : List Char,
    dropTrailingSpaces (dropTrailingSpaces l) = dropTrailingSpaces l := by
  intro l
  induction l with
  | nil => rfl
  | cons a t ih =>
      by_cases hc : ((dropTrailingSpaces t).isEmpty && isPySpace a) = true
      · have h0 : dropTrailingSpaces (a :: t) = [] := by
          simp only [dropTrailingSpaces]; rw [if_pos hc]
        rw [h0]; rfl
      · have h1 : dropTrailingSpaces (a :: t) = a :: dropTrailingSpaces t := by
          simp only [dropTrailingSpaces]; rw [if_neg hc]
        rw [h1]
        show dropTrailingSpaces (a :: dropTrailingSpaces t) = _
        simp only [dropTrailingSpaces, ih]
        rw [if_neg hc]

lemma pyStripList_idem (l : List Char) : pyStripList (pyStripList l) = pyStripList l := by
  unfold pyStripList
  rcases dropTrailingSpaces_head? (l.dropWhile isPySpace) with h | h
  · rw [h]; rfl
  · have hdw : (dropTrailingSpaces (l.dropWhile isPySpace)).dropWhile isPySpace
        = dropTrailingSpaces (l.dropWhile isPySpace) := by
      apply dropWhile_isPySpace_eq_self
      intro c hc
      rw [h] at hc
      exact head?_dropWhile_isPySpace hc
    rw [hdw, dropTrailingSpaces_idem]

lemma pyStrip_idem (s : String) : pyStrip (pyStrip s) = pyStrip s := by
  unfold pyStrip
  exact congrArg String.mk (pyStripList_idem s.data)

lemma statusNorm_pyStrip (s : String) : statusNorm (pyStrip s) = statusNorm s := by
  unfold statusNorm
  rw [pyStrip_idem]

end Pipeline

namespace Pipeline

/-! ## Character-class lemmas for formatted numerals -/

lemma digitChar_range (d : ℕ) : '0' ≤ digitChar d ∧ digitChar d ≤ '9' := by
  match d with
  | 0 | 1 | 2 | 3 | 4 | 5 | 6 | 7 | 8 => decide
  | n + 9 =>
      show '0' ≤ '9' ∧ '9' ≤ '9'
      decide

lemma natToCharsAux_digits :
    ∀ fuel n : ℕ, ∀ c ∈ natToCharsAux fuel n, '0' ≤ c ∧ c ≤ '9' := by
  intro fuel
  induction fuel with
  | zero => intro n c hc; simp [natToCharsAux] at hc
  | succ f ih =>
      intro n c hc
      simp only [natToCharsAux] at hc
      split at hc
      · rw [List.mem_singleton] at hc
        rw [hc]; exact digitChar_range n
      · rw [List.mem_append] at hc
        rcases hc with hc | hc
        · exact ih _ c hc
        · rw [List.mem_singleton] at hc
          rw [hc]; exact digitChar_range (n % 10)

lemma renderCents_plain (v : ℤ) :
    ∀ ch ∈ (renderCents v).data, ch = '-' ∨ ch = '.' ∨ ('0' ≤ ch ∧ ch ≤ '9') := by
  intro ch hch
  unfold renderCents at hch
  rw [String.data_append, String.data_append, String.data_append] at hch
  rw [List.mem_append, List.mem_append, List.mem_append] at hch
  rcases hch with ((h | h) | h) | h
  · split at h
    · rw [show ("-" : String).data = ['-'] from rfl, List.mem_singleton] at h
      left; exact h
    · refine absurd h ?_
      rw [show ("" : String).data = ([] : List Char) from rfl]
      exact List.not_mem_nil ch
  · right; right
    exact natToCharsAux_digits _ _ ch h
  · rw [show ("." : String).data = ['.'] from rfl, List.mem_singleton] at h
    right; left; exact h
  · right; right
    have h2 : ch = digitChar (v.natAbs / 10 % 10) ∨ ch = digitChar (v.natAbs % 100 % 10) := by
      simpa using h
    rcases h2 with h2 | h2 <;> · rw [h2]; exact digitChar_range _

lemma renderCents_ne_empty (v : ℤ) : renderCents v ≠ "" := by
  intro h
  have hd : (renderCents v).data = [] := by rw [h]
  unfold renderCents at hd
  rw [String.data_append, String.data_append, String.data_append] at hd
  simp at hd

lemma plain_not_space {c : Char} (h : c = '-' ∨ c = '.' ∨ ('0' ≤ c ∧ c ≤ '9')) :
    isPySpace c = false := by
  rcases h with h | h | h
  · rw [h]; decide
  · rw [h]; decide
  · simp only [isPySpace, Bool.or_eq_false_iff, decide_eq_false_iff_not]
    refine ⟨⟨⟨⟨⟨?_, ?_⟩, ?_⟩, ?_⟩, ?_⟩, ?_⟩ <;>
      · rintro rfl
        exact absurd h (by decide)

lemma plain_not_lower {c : Char} (h : c = '-' ∨ c = '.' ∨ ('0' ≤ c ∧ c ≤ '9')) :
    pyUpperChar c = c := by
  unfold pyUpperChar
  rw [if_neg]
  rintro ⟨ha, -⟩
  rcases h with h | h | h
  · rw [h] at ha; exact absurd ha (by decide)
  · rw [h] at ha; exact absurd ha (by decide)
  · exact absurd (le_trans ha h.2) (by decide)

lemma dropWhile_eq_self_of_all {l : List Char} (h : ∀ c ∈ l, isPySpace c = false) :
    l.dropWhile isPySpace = l := by
  cases l with
  | nil => rfl
  | cons a t => simp [List.dropWhile_cons, h a (List.mem_cons_self a t)]

lemma dropTrailingSpaces_eq_self_of_all {l : List Char}
    (h : ∀ c ∈ l, isPySpace c = false) : dropTrailingSpaces l = l := by
  induction l with
  | nil => rfl
  | cons a t ih =>
      have ht : dropTrailingSpaces t = t :=
        ih (fun c hc => h c (List.mem_cons_of_mem _ hc))
      simp only [dropTrailingSpaces, ht]
      rw [if_neg (by simp [h a (List.mem_cons_self a t)])]

lemma pyStrip_of_plain {s : String}
    (h : ∀ ch ∈ s.data, ch = '-' ∨ ch = '.' ∨ ('0' ≤ ch ∧ ch ≤ '9')) :
    pyStrip s = s := by
  have hns : ∀ ch ∈ s.data, isPySpace ch = false := fun ch hch => plain_not_space (h ch hch)
  unfold pyStrip pyStripList
  rw [dropWhile_eq_self_of_all hns, dropTrailingSpaces_eq_self_of_all hns]

lemma pyUpper_of_plain {s : String}
    (h : ∀ ch ∈ s.data, ch = '-' ∨ ch = '.' ∨ ('0' ≤ ch ∧ ch ≤ '9')) :
    pyUpper s = s := by
  unfold pyUpper
  have hm : s.data.map pyUpperChar = s.data.map id :=
    List.map_congr_left (fun c hc => plain_not_lower (h c hc))
  rw [hm, List.map_id]

end Pipeline

namespace Pipeline

/-! ## Repair-pass case lemmas -/

lemma format2dec_ne_empty (q : ℚ) : format2dec q ≠ "" :=
  renderCents_ne_empty _

lemma statusNorm_format2dec (q : ℚ) : statusNorm (format2dec q) ∉ statusValues := by
  intro hmem
  have hplain := renderCents_plain (roundHalfEven (q * 100))
  have hs : statusNorm (format2dec q) = format2dec q := by
    unfold statusNorm format2dec
    rw [pyStrip_of_plain hplain, pyUpper_of_plain hplain]
  rw [hs] at hmem
  simp only [statusValues, List.mem_cons, List.not_mem_nil, or_false] at hmem
  rcases hmem with h | h | h
  · have hc : 'C' ∈ (format2dec q).data := by rw [h]; decide
    exact absurd (hplain 'C' hc) (by decide)
  · have hc : 'F' ∈ (format2dec q).data := by rw [h]; decide
    exact absurd (hplain 'F' hc) (by decide)
  · have hc : 'P' ∈ (format2dec q).data := by rw [h]; decide
    exact absurd (hplain 'P' hc) (by decide)

lemma realignRow_of_aligned {row : SchedRow}
    (h : statusNorm row.status ∈ statusValues) : realignRow row = row := by
  unfold realignRow
  rw [if_pos (by simpa using h)]

lemma realignRow_of_untriggered {row : SchedRow}
    (h2 : pyUpper (pyStrip row.cumulative_time_hours) ∉ statusValues) :
    realignRow row = row := by
  unfold realignRow
  split
  · rfl
  · rw [if_neg (by simpa using h2)]

lemma realignRow_of_misaligned {row : SchedRow}
    (h1 : statusNorm row.status ∉ statusValues)
    (h2 : pyUpper (pyStrip row.cumulative_time_hours) ∈ statusValues) :
    realignRow row =
      { row with
        cumulative_time_hours := ""
        status := pyStrip row.cumulative_time_hours
        actual_runtime_sec := row.status
        execution_timestamp := row.actual_runtime_sec
        qphh_result := row.execution_timestamp
        power_result := row.qphh_result
        throughput_result :=
          if row.power_result = "" then row.throughput_result else row.power_result } := by
  unfold realignRow
  rw [if_neg (by simpa using h1), if_pos (by simpa using h2)]

lemma fillHours_of_ne {row : SchedRow} (h : row.cumulative_time_hours ≠ "") :
    fillHours row = row := by
  unfold fillHours
  rw [if_pos h]

lemma fillHours_of_none {row : SchedRow} (h0 : row.cumulative_time_hours = "")
    (h : parseMinutes row.cumulative_time_min = none) : fillHours row = row := by
  unfold fillHours
  rw [if_neg (by simp [h0]), h]

lemma fillHours_of_some {row : SchedRow} {m : ℚ} (h0 : row.cumulative_time_hours = "")
    (h : parseMinutes row.cumulative_time_min = some m) :
    fillHours row = { row with cumulative_time_hours := format2dec (m * mkRat 1 60) } := by
  unfold fillHours
  rw [if_neg (by simp [h0]), h]

/-- A realignment that fixes (or leaves) the row followed by the backfill,
re-applied, is stable — aligned-status case. -/
lemma repair_fill_aligned {R : SchedRow} (hal : statusNorm R.status ∈ statusValues) :
    fillHours (realignRow (fillHours R)) = fillHours R := by
  by_cases hc : R.cumulative_time_hours = ""
  · cases hm : parseMinutes R.cumulative_time_min with
    | none => rw [fillHours_of_none hc hm, realignRow_of_aligned hal, fillHours_of_none hc hm]
    | some m =>
        rw [fillHours_of_some hc hm]
        rw [@realignRow_of_aligned
          { R with cumulative_time_hours := format2dec (m * mkRat 1 60) } hal]
        exact fillHours_of_ne (format2dec_ne_empty _)
  · rw [fillHours_of_ne hc, realignRow_of_aligned hal, fillHours_of_ne hc]

/-- As above, for a row whose `cumulative_time_hours` holds no status value. -/
lemma repair_fill_untriggered {R : SchedRow}
    (h2 : pyUpper (pyStrip R.cumulative_time_hours) ∉ statusValues) :
    fillHours (realignRow (fillHours R)) = fillHours R := by
  by_cases hc : R.cumulative_time_hours = ""
  · cases hm : parseMinutes R.cumulative_time_min with
    | none => rw [fillHours_of_none hc hm, realignRow_of_untriggered h2, fillHours_of_none hc hm]
    | some m =>
        rw [fillHours_of_some hc hm]
        rw [@realignRow_of_untriggered
          { R with cumulative_time_hours := format2dec (m * mkRat 1 60) }
          (statusNorm_format2dec _)]
        exact fillHours_of_ne (format2dec_ne_empty _)
  · rw [fillHours_of_ne hc, realignRow_of_untriggered h2, fillHours_of_ne hc]

/-- One repair pass is idempotent on every row. -/
lemma repairRow_idem (row : SchedRow) : repairRow (repairRow row) = repairRow row := by
  unfold repairRow
  by_cases h1 : statusNorm row.status ∈ statusValues
  · rw [realignRow_of_aligned h1]
    exact repair_fill_aligned h1
  · by_cases h2 : pyUpper (pyStrip row.cumulative_time_hours) ∈ statusValues
    · rw [realignRow_of_misaligned h1 h2]
      refine repair_fill_aligned ?_
      show statusNorm (pyStrip row.cumulative_time_hours) ∈ statusValues
      rw [statusNorm_pyStrip]
      exact h2
    · rw [realignRow_of_untriggered h2]
      exact repair_fill_untriggered h2

/-! ## C6: Schedule Repair is idempotent -/

/-- **C6.** Applying the repair pass (realignment followed by hours backfill)
twice to a list of schedule rows produces the same rows as applying it
once, and a correctly-aligned row (status already one of
COMPLETED/FAILED/PENDING) is never modified by the realignment. -/
theorem c6_repair_idempotent (rows : List SchedRow) (row : SchedRow)
    (h : statusNorm row.status ∈ statusValues) :
    repairRows (repairRows rows) = repairRows rows ∧ realignRow row = row := by
  refine ⟨?_, realignRow_of_aligned h⟩
  show List.map repairRow (List.map repairRow rows) = List.map repairRow rows
  induction rows with
  | nil => rfl
  | cons r t ih =>
      simp only [List.map_cons, ih]
      rw [repairRow_idem r]

/-- Witness for C6 on a concrete two-row schedule (one misaligned row, one
aligned row with pre-existing metrics). -/
theorem c6_repair_idempotent_witness :
    repairRows (repairRows [mixedMisalignedRow, exSchedRow]) =
      repairRows [mixedMisalignedRow, exSchedRow] ∧
    realignRow exSchedRow = exSchedRow :=
  c6_repair_idempotent [mixedMisalignedRow, exSchedRow] exSchedRow (by decide)

end Pipeline

namespace Pipeline

/-! ## Metrics Engine inversion lemmas -/

lemma parsePositiveFloat_pos {s : String} {q : ℚ}
    (h : parsePositiveFloat s = some q) : 0 < q := by
  unfold parsePositiveFloat at h
  cases hp : parsePyFloat s with
  | none => simp only [hp] at h; exact Option.noConfusion h
  | some r =>
      simp only [hp] at h
      by_cases hr : 0 < r
      · rw [if_pos hr] at h
        injection h with h'
        rw [← h']; exact hr
      · rw [if_neg hr] at h
        cases h

lemma collectedTimes_pos {rows : List CsvRow} : ∀ t ∈ collectedTimes rows, 0 < t := by
  intro t ht
  unfold collectedTimes at ht
  rw [List.mem_filterMap] at ht
  obtain ⟨r, -, hr⟩ := ht
  exact parsePositiveFloat_pos hr

lemma collectTimes_eq_some {rows : List CsvRow} {n : ℕ} {ts : List ℚ} :
    collectTimes rows n = some ts ↔ collectedTimes rows = ts ∧ ts.length = n := by
  show (if (collectedTimes rows).length ≠ n then none else some (collectedTimes rows))
      = some ts ↔ _
  split
  · rename_i hne
    constructor
    · intro h; cases h
    · rintro ⟨rfl, hlen⟩; exact absurd hlen hne
  · rename_i he
    push_neg at he
    constructor
    · intro h
      injection h with h'
      exact ⟨h', h' ▸ he⟩
    · rintro ⟨rfl, -⟩; rfl

lemma computeMetricsData_ok_iff {c r i : Option (List CsvRow)} {d : MetricsData} :
    computeMetricsData c r i = .ok d ↔
      ∃ cr rr ir, c = some cr ∧ r = some rr ∧ i = some ir ∧
        collectedTimes (cr.filter isPowerRowComplete) = d.powerTimes ∧
        d.powerTimes.length = 22 ∧
        collectedTimes (rr.filter isPowerRowRefresh) = d.refreshTimes ∧
        d.refreshTimes.length = 2 ∧
        (∃ irow, findThroughputRow ir = some irow ∧
          parsePositiveFloat irow.measurement_interval_seconds = some d.measurement ∧
          ∃ q, parsePyFloat irow.stream_count = some q ∧ ratTrunc q = d.streamCount) ∧
        0 < d.streamCount := by
  constructor
  · intro h
    cases c with
    | none => exact absurd h (by simp [computeMetricsData])
    | some cr =>
    cases r with
    | none => exact absurd h (by simp [computeMetricsData])
    | some rr =>
    cases i with
    | none => exact absurd h (by simp [computeMetricsData])
    | some ir =>
    simp only [computeMetricsData] at h
    cases hpt : collectTimes (cr.filter isPowerRowComplete) 22 with
    | none => simp only [hpt] at h; exact Except.noConfusion h
    | some pts =>
    simp only [hpt] at h
    cases hrt : collectTimes (rr.filter isPowerRowRefresh) 2 with
    | none => simp only [hrt] at h; exact Except.noConfusion h
    | some rts =>
    simp only [hrt] at h
    cases hir : findThroughputRow ir with
    | none => simp only [hir] at h; exact Except.noConfusion h
    | some irow =>
    simp only [hir] at h
    cases hms : parsePositiveFloat irow.measurement_interval_seconds with
    | none => simp only [hms] at h; exact Except.noConfusion h
    | some ms =>
    simp only [hms] at h
    cases hsc : parsePyFloat irow.stream_count with
    | none => simp only [hsc] at h; exact Except.noConfusion h
    | some scq =>
    simp only [hsc] at h
    split at h
    · cases h
    · rename_i hpos
      injection h with h2
      obtain ⟨hp1, hp2⟩ := collectTimes_eq_some.mp hpt
      obtain ⟨hr1, hr2⟩ := collectTimes_eq_some.mp hrt
      subst h2
      exact ⟨cr, rr, ir, rfl, rfl, rfl, hp1, hp2, hr1, hr2,
        ⟨irow, hir, hms, scq, hsc, rfl⟩, by show 0 < ratTrunc scq; omega⟩
  · rintro ⟨cr, rr, ir, rfl, rfl, rfl, hpt, hlen, hrt, hrlen,
      ⟨irow, hir, hms, q, hsc, hq⟩, hpos⟩
    have h1 : collectTimes (cr.filter isPowerRowComplete) 22 = some d.powerTimes :=
      collectTimes_eq_some.mpr ⟨hpt, hlen⟩
    have h2 : collectTimes (rr.filter isPowerRowRefresh) 2 = some d.refreshTimes :=
      collectTimes_eq_some.mpr ⟨hrt, hrlen⟩
    simp only [computeMetricsData, h1, h2, hir, hms, hsc]
    rw [hq, if_neg (by omega)]

lemma computeMetricsData_error_ne {c r i : Option (List CsvRow)} {e : String}
    (h : computeMetricsData c r i = .error e) : e ≠ "" := by
  cases c with
  | none => simp only [computeMetricsData] at h; injection h with h2; rw [← h2]; decide
  | some cr =>
  cases r with
  | none => simp only [computeMetricsData] at h; injection h with h2; rw [← h2]; decide
  | some rr =>
  cases i with
  | none => simp only [computeMetricsData] at h; injection h with h2; rw [← h2]; decide
  | some ir =>
  simp only [computeMetricsData] at h
  cases hpt : collectTimes (cr.filter isPowerRowComplete) 22 with
  | none => simp only [hpt] at h; injection h with h2; rw [← h2]; decide
  | some pts =>
  simp only [hpt] at h
  cases hrt : collectTimes (rr.filter isPowerRowRefresh) 2 with
  | none => simp only [hrt] at h; injection h with h2; rw [← h2]; decide
  | some rts =>
  simp only [hrt] at h
  cases hir : findThroughputRow ir with
  | none => simp only [hir] at h; injection h with h2; rw [← h2]; decide
  | some irow =>
  simp only [hir] at h
  cases hms : parsePositiveFloat irow.measurement_interval_seconds with
  | none => simp only [hms] at h; injection h with h2; rw [← h2]; decide
  | some ms =>
  simp only [hms] at h
  cases hsc : parsePyFloat irow.stream_count with
  | none => simp only [hsc] at h; injection h with h2; rw [← h2]; decide
  | some scq =>
  simp only [hsc] at h
  split at h
  · injection h with h2; rw [← h2]; decide
  · cases h

lemma computeMetrics_ok_elim {c r i : Option (List CsvRow)} {sf : ℚ}
    {m : MetricComputation}
    (h : computeMetrics c r i sf = .ok m) :
    ∃ d, computeMetricsData c r i = .ok d ∧
      m.power = powerMetricR sf (d.powerTimes ++ d.refreshTimes) ∧
      m.throughput = throughputMetricR d.streamCount d.measurement ∧
      m.qphh = Real.sqrt (m.power * m.throughput) ∧
      0 < m.power ∧ 0 < m.throughput := by
  unfold computeMetrics at h
  cases hd : computeMetricsData c r i with
  | error e => simp only [hd] at h; exact Except.noConfusion h
  | ok d =>
      simp only [hd] at h
      split at h
      · cases h
      · rename_i hpos
        push_neg at hpos
        injection h with h2
        refine ⟨d, rfl, ?_, ?_, ?_, ?_, ?_⟩
        · rw [← h2]
        · rw [← h2]
        · rw [← h2]
        · rw [← h2]; exact hpos.1
        · rw [← h2]; exact hpos.2

lemma computeMetrics_ok_intro {c r i : Option (List CsvRow)} {sf : ℚ} {d : MetricsData}
    (hd : computeMetricsData c r i = .ok d)
    (hp : 0 < powerMetricR sf (d.powerTimes ++ d.refreshTimes))
    (ht : 0 < throughputMetricR d.streamCount d.measurement) :
    computeMetrics c r i sf =
      .ok ⟨Real.sqrt (powerMetricR sf (d.powerTimes ++ d.refreshTimes) *
              throughputMetricR d.streamCount d.measurement),
           powerMetricR sf (d.powerTimes ++ d.refreshTimes),
           throughputMetricR d.streamCount d.measurement⟩ := by
  simp only [computeMetrics, hd]
  rw [if_neg (by rw [not_or]; exact ⟨not_le.mpr hp, not_le.mpr ht⟩)]

lemma computeMetrics_cases (c r i : Option (List CsvRow)) (sf : ℚ) :
    (∃ m, computeMetrics c r i sf = .ok m) ∨
      (∃ e, computeMetrics c r i sf = .error e ∧ e ≠ "") := by
  cases hd : computeMetricsData c r i with
  | error e =>
      right
      refine ⟨e, ?_, computeMetricsData_error_ne hd⟩
      simp only [computeMetrics, hd]
  | ok d =>
      by_cases hcond : powerMetricR sf (d.powerTimes ++ d.refreshTimes) ≤ 0 ∨
          throughputMetricR d.streamCount d.measurement ≤ 0
      · right
        refine ⟨"non-positive power or throughput metric", ?_, by decide⟩
        simp only [computeMetrics, hd]
        rw [if_pos hcond]
      · left
        refine ⟨⟨Real.sqrt (powerMetricR sf (d.powerTimes ++ d.refreshTimes) *
            throughputMetricR d.streamCount d.measurement),
          powerMetricR sf (d.powerTimes ++ d.refreshTimes),
          throughputMetricR d.streamCount d.measurement⟩, ?_⟩
        simp only [computeMetrics, hd]
        rw [if_neg hcond]

end Pipeline

namespace Pipeline

/-! ## C1: the Power metric -/

/-- **C1 counterexample.** A complete artifact can carry 23 POWER/stream-0
rows, one of them with the non-positive timing `-1`, and the Metrics
Engine still succeeds: non-positive timings are dropped before the
cardinality check rather than causing a failure, refuting the claim that
the computation fails whenever the tagged-row count differs from 22 or
any timing is non-positive. -/
theorem c1_nonpositive_timing_succeeds :
    (exCompleteRows.filter isPowerRowComplete).length = 23 ∧
    badPowerRow ∈ exCompleteRows.filter isPowerRowComplete ∧
    parsePyFloat badPowerRow.execution_time_seconds = some (-1) ∧
    ∃ m, computeMetrics (some exCompleteRows) (some exRefreshRows) (some exIntervalRows) 1
      = .ok m := by
  refine ⟨by decide, by decide, by decide, ?_⟩
  have hd : computeMetricsData (some exCompleteRows) (some exRefreshRows)
      (some exIntervalRows) = .ok ⟨List.replicate 22 (1 : ℚ), [1, 1], 60, 1⟩ := by rfl
  refine ⟨_, computeMetrics_ok_intro hd ?_ ?_⟩
  · show 0 < powerMetricR 1 (List.replicate 22 (1 : ℚ) ++ [1, 1])
    unfold powerMetricR
    apply div_pos
    · norm_num
    · unfold geomMean24
      exact Real.exp_pos _
  · show 0 < throughputMetricR 1 60
    unfold throughputMetricR
    apply div_pos
    · norm_num
    · norm_num

/-- **C1 (amended).** On success, the Power metric is exactly
`3600 × SF / geomMean` of the 22 + 2 positive-parseable POWER timings
(non-positive or unparseable timings are dropped before counting), all
collected timings are positive, and `QphH = √(Power × Throughput)` with
both factors strictly positive; whenever the count of positive-parseable
timings differs from 22 (complete) or 2 (refresh), the engine fails with
a non-empty reported reason and produces no value. -/
theorem c1_power_metric (complete refresh interval : List CsvRow) (sf : ℚ) :
    (∀ m, computeMetrics (some complete) (some refresh) (some interval) sf = .ok m →
      (collectedTimes (complete.filter isPowerRowComplete)).length = 22 ∧
      (collectedTimes (refresh.filter isPowerRowRefresh)).length = 2 ∧
      (∀ t ∈ collectedTimes (complete.filter isPowerRowComplete) ++
          collectedTimes (refresh.filter isPowerRowRefresh), 0 < t) ∧
      m.power = 3600 * (sf : ℝ) / geomMean24
          (collectedTimes (complete.filter isPowerRowComplete) ++
           collectedTimes (refresh.filter isPowerRowRefresh)) ∧
      0 < m.power ∧ 0 < m.throughput ∧
      m.qphh = Real.sqrt (m.power * m.throughput)) ∧
    ((collectedTimes (complete.filter isPowerRowComplete)).length ≠ 22 ∨
      (collectedTimes (refresh.filter isPowerRowRefresh)).length ≠ 2 →
      ∃ e, computeMetrics (some complete) (some refresh) (some interval) sf
        = .error e ∧ e ≠ "") := by
  constructor
  · intro m h
    obtain ⟨d, hd, hpw, htp, hq, hp0, ht0⟩ := computeMetrics_ok_elim h
    obtain ⟨cr, rr, ir, hc, hr, hi, hp1, hp2, hr1, hr2, -, -⟩ :=
      computeMetricsData_ok_iff.mp hd
    injection hc with hc
    injection hr with hr
    injection hi with hi
    subst hc; subst hr
    refine ⟨by rw [hp1]; exact hp2, by rw [hr1]; exact hr2, ?_, ?_, hp0, ht0, hq⟩
    · intro t ht
      rcases List.mem_append.mp ht with h' | h'
      · exact collectedTimes_pos t h'
      · exact collectedTimes_pos t h'
    · rw [hpw, ← hp1, ← hr1]
      rfl
  · intro hbad
    rcases computeMetrics_cases (some complete) (some refresh) (some interval) sf with
      ⟨m, hm⟩ | he
    · exfalso
      obtain ⟨d, hd, -⟩ := computeMetrics_ok_elim hm
      obtain ⟨cr, rr, ir, hc, hr, hi, hp1, hp2, hr1, hr2, -, -⟩ :=
        computeMetricsData_ok_iff.mp hd
      injection hc with hc
      injection hr with hr
      subst hc; subst hr
      rcases hbad with hbad | hbad
      · exact hbad (by rw [hp1]; exact hp2)
      · exact hbad (by rw [hr1]; exact hr2)
    · exact he

/-! ## C3: the Throughput metric -/

/-- **C3 counterexample.** The export driver's `calculate_throughput_metric`
multiplies by the scale factor: with one THROUGHPUT row
(`measurement = 3600`, `stream_count = 1`) and scale factor 10 it returns
220, while the claimed formula `stream_count × 22 × 3600 /
measurement_interval_seconds` gives 22. -/
theorem c3_export_scale_factor :
    calculateThroughputMetric c3IntervalRows 10 = some 220 ∧
    ((1 : ℚ) * 22 * 3600) / 3600 = 22 ∧ (220 : ℚ) ≠ 22 := by
  decide

/-- **C3 (amended).** The recompute driver's Throughput metric equals
`stream_count × 22 × 3600 / measurement_interval_seconds` from the single
THROUGHPUT interval row, with positive measurement and stream count, and
the engine always yields either a value or a non-empty reported reason
(never an exception or division by zero); the export driver computes that
same formula additionally multiplied by the scale factor, likewise
yielding no value when the row is absent or the measurement or stream
count is non-positive. -/
theorem c3_throughput_metric (c r i rows : List CsvRow) (sf : ℚ) :
    (∀ m, computeMetrics (some c) (some r) (some i) sf = .ok m →
      ∃ d, computeMetricsData (some c) (some r) (some i) = .ok d ∧
        m.throughput = ((d.streamCount : ℝ) * 22 * 3600) / ((d.measurement : ℚ) : ℝ) ∧
        0 < d.measurement ∧ 0 < d.streamCount ∧
        ∃ irow, findThroughputRow i = some irow ∧
          parsePositiveFloat irow.measurement_interval_seconds = some d.measurement ∧
          ∃ q, parsePyFloat irow.stream_count = some q ∧ ratTrunc q = d.streamCount) ∧
    ((∃ m, computeMetrics (some c) (some r) (some i) sf = .ok m) ∨
      (∃ e, computeMetrics (some c) (some r) (some i) sf = .error e ∧ e ≠ "")) ∧
    (∀ v, calculateThroughputMetric rows sf = some v →
      ∃ irow, rows.find? exportThroughputPred = some irow ∧
        ∃ ms sc, toFloat irow.measurement_interval_seconds = some ms ∧
          toFloat irow.stream_count = some sc ∧ 0 < ms ∧ 0 < sc ∧
          v = sc * 22 * 3600 / ms * sf) ∧
    (rows.find? exportThroughputPred = none → calculateThroughputMetric rows sf = none) := by
  refine ⟨?_, computeMetrics_cases _ _ _ _, ?_, ?_⟩
  · intro m h
    obtain ⟨d, hd, -, htp, -, -, -⟩ := computeMetrics_ok_elim h
    obtain ⟨cr, rr, ir, -, -, hi, -, -, -, -, ⟨irow, hir, hms, q, hsc, hq⟩, hpos⟩ :=
      computeMetricsData_ok_iff.mp hd
    injection hi with hi
    subst hi
    exact ⟨d, hd, htp, parsePositiveFloat_pos hms, hpos,
      irow, hir, hms, q, hsc, hq⟩
  · intro v h
    unfold calculateThroughputMetric at h
    cases hf : rows.find? exportThroughputPred with
    | none => simp only [hf] at h; exact Option.noConfusion h
    | some irow =>
        simp only [hf] at h
        cases hm : toFloat irow.measurement_interval_seconds with
        | none => simp only [hm] at h; exact Option.noConfusion h
        | some ms =>
            cases hs : toFloat irow.stream_count with
            | none => simp only [hm, hs] at h; exact Option.noConfusion h
            | some sc =>
                simp only [hm, hs] at h
                split at h
                · cases h
                · rename_i hcond
                  push_neg at hcond
                  injection h with h2
                  exact ⟨irow, rfl, ms, sc, hm, hs, hcond.1, hcond.2, h2.symm⟩
  · intro hf
    unfold calculateThroughputMetric
    simp only [hf]

end Pipeline

namespace Pipeline

/-! ## C5: reuse of existing metric fields -/

lemma exCompute_ok :
    ∃ m, computeMetrics (some exCompleteRows) (some exRefreshRows) (some exIntervalRows) 1
      = .ok m := by
  have hd : computeMetricsData (some exCompleteRows) (some exRefreshRows)
      (some exIntervalRows) = .ok ⟨List.replicate 22 (1 : ℚ), [1, 1], 60, 1⟩ := by rfl
  refine ⟨_, computeMetrics_ok_intro hd ?_ ?_⟩
  · show 0 < powerMetricR 1 (List.replicate 22 (1 : ℚ) ++ [1, 1])
    unfold powerMetricR
    apply div_pos
    · norm_num
    · unfold geomMean24
      exact Real.exp_pos _
  · show 0 < throughputMetricR 1 60
    unfold throughputMetricR
    apply div_pos
    · norm_num
    · norm_num

/-- `normalize_row` never reads or writes the three metric result fields. -/
lemma normalizeRow_metrics (r : SchedRow) (a b c : String) :
    normalizeRow { r with qphh_result := a, power_result := b, throughput_result := c } =
      { normalizeRow r with qphh_result := a, power_result := b, throughput_result := c } := by
  unfold normalizeRow
  by_cases h1 : statusNorm r.status ∈ statusValues
  · simp [h1]
  · by_cases h2 : pyUpper (pyStrip r.cumulative_time_hours) ∈ statusValues
    · simp [h1, h2]
    · simp [h1, h2]

/-- The per-row recompute step, on the concrete artifact fixture, succeeds
and overwrites the three metric fields with the freshly computed values. -/
lemma processRow_exFs {m : MetricComputation}
    (hm : computeMetrics (some exCompleteRows) (some exRefreshRows) (some exIntervalRows) 1
      = .ok m)
    (row : SchedRow) (hn : normalizeRow row = row)
    (hstem : artifactStem row = "run1_1gb_sync_rep1")
    (hdb : parsePyFloat row.db_size_gb = some 1) :
    processRow exFs row =
      ({ row with
          qphh_result := formatMetric m.qphh
          power_result := formatMetric m.power
          throughput_result := formatMetric m.throughput }, none) := by
  simp only [processRow, hn, hstem, hdb]
  have h1 : exFs ("run1_1gb_sync_rep1" ++ "_complete.csv") = some exCompleteRows := by rfl
  have h2 : exFs ("run1_1gb_sync_rep1" ++ "_refresh.csv") = some exRefreshRows := by rfl
  have h3 : exFs ("run1_1gb_sync_rep1" ++ "_interval.csv") = some exIntervalRows := by rfl
  simp only [h1, h2, h3, hm]

set_option maxHeartbeats 1000000 in
/-- **C5 counterexample.** The recompute driver overwrites pre-existing
metric fields: two schedule rows that differ only in their already-present
`qphh_result`/`power_result`/`throughput_result` values are mapped by the
per-row recompute step to the *same* successful result, so the existing
values are discarded rather than reused. -/
theorem c5_recompute_overwrites :
    exSchedRow.qphh_result = "999.00" ∧
    exSchedRowAlt.qphh_result = "123.00" ∧
    (processRow exFs exSchedRow).2 = none ∧
    processRow exFs exSchedRow = processRow exFs exSchedRowAlt := by
  obtain ⟨m, hm⟩ := exCompute_ok
  refine ⟨by decide, by decide, ?_, ?_⟩
  · rw [processRow_exFs hm exSchedRow (by decide) (by decide) (by decide)]
  · rw [processRow_exFs hm exSchedRow (by decide) (by decide) (by decide),
        processRow_exFs hm exSchedRowAlt (by decide) (by decide) (by decide)]
    rfl

/-- **C5 (amended).** The export driver uses pre-existing parseable
`power_result`/`throughput_result` values: its output row is independent
of the located artifacts and displays the existing values, consulting the
Metrics Engine only when a value is missing.  The recompute driver, by
contrast, overwrites the three metric fields of every successfully
processed row: its result does not depend on the metric values already
present. -/
theorem c5_metric_reuse
    (locate locate' :
      SchedRow → Option (List CsvRow) × Option (List CsvRow) × Option (List CsvRow))
    (row : SchedRow) (p q : ℚ)
    (hp : toFloat row.power_result = some p)
    (hq : toFloat row.throughput_result = some q) :
    (exportRow locate row = exportRow locate' row ∧
      (exportRow locate row).power_metric = formatMetric (p : ℝ) ∧
      (exportRow locate row).throughput_metric = formatMetric (q : ℝ)) ∧
    (∀ (fs : String → Option (List CsvRow)) (r : SchedRow) (a b c : String),
      (processRow fs r).2 = none →
      processRow fs { r with qphh_result := a, power_result := b, throughput_result := c } =
        processRow fs r) := by
  constructor
  · refine ⟨?_, ?_, ?_⟩ <;>
      simp only [exportRow, hp, hq, Option.isNone_some, Bool.or_self, Bool.false_eq_true,
        if_false, formatNumber] <;> rfl
  · intro fs r a b c hsucc
    simp only [processRow, normalizeRow_metrics]
    have hstem : artifactStem
        { normalizeRow r with qphh_result := a, power_result := b, throughput_result := c } =
        artifactStem (normalizeRow r) := rfl
    rw [hstem]
    cases hdb : parsePyFloat (normalizeRow r).db_size_gb with
    | none =>
        exfalso
        simp only [processRow, hdb] at hsucc
        exact Option.noConfusion hsucc
    | some sf =>
        cases hcm : computeMetrics
            (fs (artifactStem (normalizeRow r) ++ "_complete.csv"))
            (fs (artifactStem (normalizeRow r) ++ "_refresh.csv"))
            (fs (artifactStem (normalizeRow r) ++ "_interval.csv")) sf with
        | error e =>
            exfalso
            simp only [processRow, hdb, hcm] at hsucc
            exact Option.noConfusion hsucc
        | ok m =>
            simp only [hdb, hcm]

end Pipeline

namespace Pipeline

/-- Witness for C5 at a concrete row with pre-existing metric values and two
different artifact locators. -/
theorem c5_metric_reuse_witness :
    toFloat exSchedRow.power_result = some 998 ∧
    toFloat exSchedRow.throughput_result = some 997 ∧
    ((exportRow (fun _ => (none, none, none)) exSchedRow =
        exportRow (fun _ => (some [], some [], some [])) exSchedRow ∧
      (exportRow (fun _ => (none, none, none)) exSchedRow).power_metric
        = formatMetric ((998 : ℚ) : ℝ) ∧
      (exportRow (fun _ => (none, none, none)) exSchedRow).throughput_metric
        = formatMetric ((997 : ℚ) : ℝ)) ∧
    (∀ (fs : String → Option (List CsvRow)) (r : SchedRow) (a b c : String),
      (processRow fs r).2 = none →
      processRow fs { r with qphh_result := a, power_result := b, throughput_result := c } =
        processRow fs r)) :=
  ⟨by decide, by decide,
    c5_metric_reuse (fun _ => (none, none, none)) (fun _ => (some [], some [], some []))
      exSchedRow 998 997 (by decide) (by decide)⟩

end Pipeline

namespace Pipeline

/-! ## C10: the recompute driver's exit codes -/

/-- **C10.** The recompute driver exits 0 exactly when no per-row failure
occurred (given its inputs exist); a missing schedule file or results
directory exits 1; with failures present, it exits 1 precisely when no
row at all succeeded and 2 when some rows succeeded (partial failure),
so a nonzero exit is produced whenever any row fails, and the
total-failure code 1 implies that no row was processed successfully. -/
theorem c10_exit_codes (sched : Option (List SchedRow)) (dirExists : Bool)
    (fs : String → Option (List CsvRow)) (rows : List SchedRow)
    (hs : sched = some rows) (hdir : dirExists = true) :
    (recompute none dirExists fs = 1 ∧ recompute sched false fs = 1) ∧
    (recompute sched dirExists fs = 0 ↔ failureReasons fs rows = []) ∧
    (recompute sched dirExists fs = 1 → successCount fs rows = 0) ∧
    (failureReasons fs rows ≠ [] → successCount fs rows = 0 →
      recompute sched dirExists fs = 1) ∧
    (failureReasons fs rows ≠ [] → 0 < successCount fs rows →
      recompute sched dirExists fs = 2) ∧
    (failureReasons fs rows ≠ [] → recompute sched dirExists fs ≠ 0) := by
  subst hs; subst hdir
  refine ⟨⟨rfl, rfl⟩, ?_⟩
  have hstep : recompute (some rows) true fs =
      (if rows.isEmpty then 0
       else if (failureReasons fs rows).isEmpty then 0
       else if successCount fs rows = 0 then 1 else 2) := rfl
  rw [hstep]
  by_cases hempty : rows.isEmpty
  · have hrows : rows = [] := by
      cases rows with
      | nil => rfl
      | cons a t => cases hempty
    subst hrows
    rw [if_pos hempty]
    exact ⟨Iff.intro (fun _ => rfl) (fun _ => rfl), fun h => absurd h (by decide),
      fun h _ => absurd rfl h, fun h _ => absurd rfl h, fun h => absurd rfl h⟩
  · rw [if_neg hempty]
    by_cases hf : (failureReasons fs rows).isEmpty
    · have hfe : failureReasons fs rows = [] := by
        cases hl : failureReasons fs rows with
        | nil => rfl
        | cons a t => rw [hl] at hf; cases hf
      rw [if_pos hf]
      exact ⟨Iff.intro (fun _ => hfe) (fun _ => rfl), fun h => absurd h (by decide),
        fun h => absurd hfe h, fun h => absurd hfe h, fun h => absurd hfe h⟩
    · have hfe : failureReasons fs rows ≠ [] := by
        intro he
        rw [he] at hf
        exact hf rfl
      rw [if_neg hf]
      by_cases hsc : successCount fs rows = 0
      · rw [if_pos hsc]
        exact ⟨Iff.intro (fun h => absurd h (by decide)) (fun he => absurd he hfe),
          fun _ => hsc, fun _ _ => rfl,
          fun _ hpos => absurd hsc (Nat.pos_iff_ne_zero.mp hpos),
          fun _ => by decide⟩
      · rw [if_neg hsc]
        exact ⟨Iff.intro (fun h => absurd h (by decide)) (fun he => absurd he hfe),
          fun h => absurd h (by decide), fun _ h0 => absurd h0 hsc, fun _ _ => rfl,
          fun _ => by decide⟩

/-- Witness for C10 on a one-row schedule over an empty results store. -/
theorem c10_exit_codes_witness :
    (recompute none true (fun _ => none) = 1 ∧
      recompute (some [exSchedRow]) false (fun _ => none) = 1) ∧
    (recompute (some [exSchedRow]) true (fun _ => none) = 0 ↔
      failureReasons (fun _ => none) [exSchedRow] = []) ∧
    (recompute (some [exSchedRow]) true (fun _ => none) = 1 →
      successCount (fun _ => none) [exSchedRow] = 0) ∧
    (failureReasons (fun _ => none) [exSchedRow] ≠ [] →
      successCount (fun _ => none) [exSchedRow] = 0 →
      recompute (some [exSchedRow]) true (fun _ => none) = 1) ∧
    (failureReasons (fun _ => none) [exSchedRow] ≠ [] →
      0 < successCount (fun _ => none) [exSchedRow] →
      recompute (some [exSchedRow]) true (fun _ => none) = 2) ∧
    (failureReasons (fun _ => none) [exSchedRow] ≠ [] →
      recompute (some [exSchedRow]) true (fun _ => none) ≠ 0) :=
  c10_exit_codes (some [exSchedRow]) true (fun _ => none) [exSchedRow] rfl rfl

end Pipeline

namespace Pipeline

/-! ## C8: seed determinism and the order of pseudo-random draws -/

lemma rcbdBlocks_trace {σ : Type} (R : Rng σ) (treatments : List Treatment) :
    ∀ (ids : List ℚ) (s : σ) (num : ℕ),
      (rcbdBlocks R treatments ids s num).2.2 =
        ids.map (fun b =>
          RngCall.withinBlock (treatments.filter (fun t => t.db_size_gb = b))) := by
  intro ids
  induction ids with
  | nil => intro s num; rfl
  | cons b rest ih =>
      intro s num
      show RngCall.withinBlock (treatments.filter (fun t => t.db_size_gb = b)) ::
          (rcbdBlocks R treatments rest
            (R.shuffle s (treatments.filter (fun t => t.db_size_gb = b))).2 (num + 1)).2.2 = _
      rw [ih, List.map_cons]

/-- **C8.** With the same integer seed and identical generation parameters,
two invocations of schedule generation produce identical schedules (same
row order and contents, execution metadata included), and the recorded
pseudo-random draws are issued in the fixed order: the block-order
shuffle of the block ids first, then one within-block shuffle per block,
in the (already shuffled) block order. -/
theorem c8_rcbd_determinism {σ : Type} (R : Rng σ) (init : ℤ → σ)
    (seed1 seed2 : ℤ) (io1 io2 : List String) (db1 db2 : List ℚ)
    (reps1 reps2 runtime1 runtime2 cd1 cd2 : ℕ)
    (hseed : seed1 = seed2) (hio : io1 = io2) (hdb : db1 = db2)
    (hreps : reps1 = reps2) (hrt : runtime1 = runtime2) (hcd : cd1 = cd2) :
    generateSchedule R init seed1 io1 db1 reps1 runtime1 cd1 =
      generateSchedule R init seed2 io2 db2 reps2 runtime2 cd2 ∧
    (generateSchedule R init seed1 io1 db1 reps1 runtime1 cd1).2 =
      RngCall.blockOrder (uniqueKeepFirst []
        ((generateTreatmentCombinations io1 db1 reps1).map (·.db_size_gb))) ::
      ((R.shuffle (init seed1) (uniqueKeepFirst []
          ((generateTreatmentCombinations io1 db1 reps1).map (·.db_size_gb)))).1).map
        (fun b => RngCall.withinBlock
          ((generateTreatmentCombinations io1 db1 reps1).filter
            (fun t => t.db_size_gb = b))) := by
  subst hseed; subst hio; subst hdb; subst hreps; subst hrt; subst hcd
  refine ⟨rfl, ?_⟩
  show (generateRcbdSchedule R (generateTreatmentCombinations io1 db1 reps1)
      (init seed1)).2.2 = _
  show RngCall.blockOrder _ ::
      (rcbdBlocks R (generateTreatmentCombinations io1 db1 reps1)
        (R.shuffle (init seed1) (uniqueKeepFirst []
          ((generateTreatmentCombinations io1 db1 reps1).map (·.db_size_gb)))).1
        (R.shuffle (init seed1) (uniqueKeepFirst []
          ((generateTreatmentCombinations io1 db1 reps1).map (·.db_size_gb)))).2 1).2.2 = _
  rw [rcbdBlocks_trace]

/-- Witness for C8 with the identity generator and concrete parameters. -/
theorem c8_rcbd_determinism_witness :
    generateSchedule idRng (fun _ => ()) 7 ["sync", "iouring"] [1, 10] 2 30 5 =
      generateSchedule idRng (fun _ => ()) 7 ["sync", "iouring"] [1, 10] 2 30 5 ∧
    (generateSchedule idRng (fun _ => ()) 7 ["sync", "iouring"] [1, 10] 2 30 5).2 =
      RngCall.blockOrder (uniqueKeepFirst []
        ((generateTreatmentCombinations ["sync", "iouring"] [1, 10] 2).map (·.db_size_gb))) ::
      ((idRng.shuffle ((fun _ : ℤ => ()) 7) (uniqueKeepFirst []
          ((generateTreatmentCombinations ["sync", "iouring"] [1, 10] 2).map (·.db_size_gb)))).1).map
        (fun b => RngCall.withinBlock
          ((generateTreatmentCombinations ["sync", "iouring"] [1, 10] 2).filter
            (fun t => t.db_size_gb = b))) :=
  c8_rcbd_determinism idRng (fun _ => ()) 7 7 ["sync", "iouring"] ["sync", "iouring"]
    [1, 10] [1, 10] 2 2 30 30 5 5 rfl rfl rfl rfl rfl rfl

end Pipeline

namespace Pipeline

/-! ## C9: the balance invariant of RCBD schedules -/

lemma countP_map_const {α β : Type} (p : β → Bool) (f : α → β) (c : Bool)
    (hc : ∀ a, p (f a) = c) :
    ∀ l : List α, (l.map f).countP p = if c then l.length else 0 := by
  intro l
  induction l with
  | nil => cases c <;> simp
  | cons a t ih =>
      rw [List.map_cons, List.countP_cons, ih, hc]
      cases c <;> simp

lemma countP_ioBlock (d : ℚ) (im : String) (b : ℚ) (nm lbl : String) (reps : ℕ) :
    ∀ (io : List String),
      ((io.flatMap (fun ioM => (List.range reps).map (fun k =>
          (⟨b, nm, ioM, k + 1, lbl ++ "_" ++ ioM⟩ : Treatment)))).countP
        (fun t => decide (t.db_size_gb = d) && decide (t.io_method = im))) =
      (if b = d then 1 else 0) * io.countP (fun s => decide (s = im)) * reps := by
  intro io
  induction io with
  | nil => simp
  | cons ioM rest ih =>
      rw [List.flatMap_cons, List.countP_append, ih, List.countP_cons]
      rw [countP_map_const
          (fun t : Treatment => decide (t.db_size_gb = d) && decide (t.io_method = im))
          (fun k => (⟨b, nm, ioM, k + 1, lbl ++ "_" ++ ioM⟩ : Treatment))
          (decide (b = d) && decide (ioM = im)) (fun k => rfl) (List.range reps),
        List.length_range]
      by_cases h1 : b = d <;> by_cases h2 : ioM = im <;> simp [h1, h2] <;> ring

lemma countP_treatments (d : ℚ) (im : String) (io : List String) (reps : ℕ) :
    ∀ (db : List ℚ),
      ((generateTreatmentCombinations io db reps).countP
        (fun t => decide (t.db_size_gb = d) && decide (t.io_method = im))) =
      db.countP (fun b => decide (b = d)) * io.countP (fun s => decide (s = im)) * reps := by
  intro db
  induction db with
  | nil => simp [generateTreatmentCombinations]
  | cons b rest ih =>
      simp only [generateTreatmentCombinations, List.flatMap_cons, List.countP_append] at *
      rw [ih, countP_ioBlock, List.countP_cons]
      by_cases h1 : b = d <;> simp [h1] <;> ring

lemma countP_uniqueKeepFirst (d : ℚ) :
    ∀ (l seen : List ℚ),
      (uniqueKeepFirst seen l).countP (fun b => decide (b = d)) =
        if d ∈ l ∧ d ∉ seen then 1 else 0 := by
  intro l
  induction l with
  | nil => intro seen; simp [uniqueKeepFirst]
  | cons x t ih =>
      intro seen
      rw [uniqueKeepFirst]
      by_cases hx : x ∈ seen
      · rw [if_pos hx, ih]
        have hiff : (d ∈ t ∧ d ∉ seen) ↔ (d ∈ x :: t ∧ d ∉ seen) := by
          constructor
          · rintro ⟨h1, h2⟩
            exact ⟨List.mem_cons_of_mem x h1, h2⟩
          · rintro ⟨h1, h2⟩
            rcases List.mem_cons.mp h1 with h | h
            · exact absurd (h ▸ hx) h2
            · exact ⟨h, h2⟩
        exact if_congr hiff rfl rfl
      · rw [if_neg hx, List.countP_cons, ih]
        by_cases hdx : d = x
        · subst hdx
          have h1 : ¬ (d ∈ t ∧ d ∉ d :: seen) := by
            rintro ⟨_, h2⟩
            exact h2 (List.mem_cons_self d seen)
          have h2 : d ∈ d :: t ∧ d ∉ seen := ⟨List.mem_cons_self d t, hx⟩
          rw [if_neg h1, if_pos h2]
          simp
        · have h1 : (d ∈ t ∧ d ∉ x :: seen) ↔ (d ∈ x :: t ∧ d ∉ seen) := by
            constructor
            · rintro ⟨ht, hns⟩
              exact ⟨List.mem_cons_of_mem x ht,
                fun hs => hns (List.mem_cons_of_mem x hs)⟩
            · rintro ⟨hmem, hns⟩
              rcases List.mem_cons.mp hmem with h | h
              · exact absurd h hdx
              · refine ⟨h, fun hs => ?_⟩
                rcases List.mem_cons.mp hs with h2 | h2
                · exact hdx h2
                · exact hns h2
          have h2 : ¬ ((fun b => decide (b = d)) x = true) := by
            simp only [decide_eq_true_eq]
            exact fun h => hdx h.symm
          rw [if_neg h2, Nat.add_zero]
          exact if_congr h1 rfl rfl

lemma mem_map_db_treatments (d : ℚ) (im : String) (io : List String) (db : List ℚ)
    (reps : ℕ) (hd : d ∈ db) (him : im ∈ io) (hreps : 1 ≤ reps) :
    d ∈ (generateTreatmentCombinations io db reps).map (·.db_size_gb) := by
  refine List.mem_map.mpr
    ⟨⟨d, sanitizeDbName (formatDbLabel d), im, 1, formatDbLabel d ++ "_" ++ im⟩, ?_, rfl⟩
  simp only [generateTreatmentCombinations, List.mem_flatMap, List.mem_map, List.mem_range]
  exact ⟨d, hd, im, him, 0, hreps, rfl⟩

lemma countP_filterBlock (d : ℚ) (im : String) (b : ℚ) :
    ∀ (treatments : List Treatment),
      ((treatments.filter (fun t => t.db_size_gb = b)).countP
        (fun t => decide (t.db_size_gb = d) && decide (t.io_method = im))) =
      if b = d then treatments.countP
        (fun t => decide (t.db_size_gb = d) && decide (t.io_method = im)) else 0 := by
  intro treatments
  induction treatments with
  | nil => by_cases h : b = d <;> simp [h]
  | cons t rest ih =>
      rw [List.filter_cons]
      by_cases h1 : t.db_size_gb = b
      · rw [if_pos (by simpa using h1), List.countP_cons, ih, List.countP_cons]
        by_cases hbd : b = d
        · rw [if_pos hbd, if_pos hbd]
        · have hpt : ¬ ((fun t : Treatment =>
              decide (t.db_size_gb = d) && decide (t.io_method = im)) t = true) := by
            simp only [Bool.and_eq_true, decide_eq_true_eq]
            rintro ⟨hd2, _⟩
            exact hbd (h1 ▸ hd2 ▸ rfl)
          rw [if_neg hbd, if_neg hbd, if_neg hpt]
      · rw [if_neg (by simpa using h1), ih, List.countP_cons]
        by_cases hbd : b = d
        · have hpt : ¬ ((fun t : Treatment =>
              decide (t.db_size_gb = d) && decide (t.io_method = im)) t = true) := by
            simp only [Bool.and_eq_true, decide_eq_true_eq]
            rintro ⟨hd2, _⟩
            exact h1 (hd2 ▸ hbd.symm ▸ rfl)
          rw [if_pos hbd, if_pos hbd, if_neg hpt, Nat.add_zero]
        · rw [if_neg hbd, if_neg hbd]

lemma countP_pairMap (d : ℚ) (im : String) (str : String) :
    ∀ (l : List Treatment),
      ((l.map (fun t => (t, str))).countP (fun x : BlockedTreatment =>
        decide (x.1.db_size_gb = d) && decide (x.1.io_method = im))) =
      l.countP (fun t => decide (t.db_size_gb = d) && decide (t.io_method = im)) := by
  intro l
  induction l with
  | nil => rfl
  | cons t rest ih => simp [List.countP_cons, ih]

lemma countP_rcbdBlocks {σ : Type} (R : Rng σ) (hR : R.Lawful)
    (treatments : List Treatment) (d : ℚ) (im : String) :
    ∀ (ids : List ℚ) (s : σ) (num : ℕ),
      ((rcbdBlocks R treatments ids s num).1).countP
        (fun x : BlockedTreatment =>
          decide (x.1.db_size_gb = d) && decide (x.1.io_method = im)) =
      (ids.map (fun b => if b = d then treatments.countP
        (fun t => decide (t.db_size_gb = d) && decide (t.io_method = im)) else 0)).sum := by
  intro ids
  induction ids with
  | nil => intro s num; rfl
  | cons b rest ih =>
      intro s num
      show ((((R.shuffle s (treatments.filter (fun t => t.db_size_gb = b))).1.map
            (fun t => (t, "Block" ++ natRepr num ++ "_" ++ formatDbLabel b))) ++
          (rcbdBlocks R treatments rest
            (R.shuffle s (treatments.filter (fun t => t.db_size_gb = b))).2
            (num + 1)).1).countP _) = _
      rw [List.countP_append, ih, countP_pairMap,
        List.Perm.countP_eq _ (hR Treatment s (treatments.filter (fun t => t.db_size_gb = b))),
        countP_filterBlock, List.map_cons, List.sum_cons]

lemma countP_addRunOrder (d : ℚ) (im : String) :
    ∀ (l : List BlockedTreatment) (n : ℕ),
      ((addRunOrder n l).countP (fun r => decide (r.treatment.db_size_gb = d) &&
        decide (r.treatment.io_method = im))) =
      l.countP (fun x : BlockedTreatment =>
        decide (x.1.db_size_gb = d) && decide (x.1.io_method = im)) := by
  intro l
  induction l with
  | nil => intro n; rfl
  | cons x rest ih =>
      intro n
      cases x with
      | mk t b => simp [addRunOrder, List.countP_cons, ih]

lemma sum_map_ite (d : ℚ) (C : ℕ) :
    ∀ (l : List ℚ), (l.map (fun b => if b = d then C else 0)).sum =
      C * l.countP (fun b => decide (b = d)) := by
  intro l
  induction l with
  | nil => simp
  | cons b rest ih =>
      rw [List.map_cons, List.sum_cons, ih, List.countP_cons]
      by_cases h : b = d <;> simp [h] <;> ring

lemma countP_eq_one_of_nodup {α : Type} [DecidableEq α] (d : α) :
    ∀ (l : List α), l.Nodup → d ∈ l → l.countP (fun b => decide (b = d)) = 1 := by
  intro l
  induction l with
  | nil => intro _ h; cases h
  | cons x rest ih =>
      intro hnd hmem
      rw [List.countP_cons]
      have hx : x ∉ rest := (List.nodup_cons.mp hnd).1
      rcases List.mem_cons.mp hmem with h | h
      · subst h
        rw [if_pos (by simp)]
        rw [List.countP_eq_zero.mpr, Nat.zero_add]
        intro a ha
        simp only [decide_eq_true_eq]
        exact fun hEq => hx (hEq ▸ ha)
      · have hxd : ¬ ((fun b => decide (b = d)) x = true) := by
          simp only [decide_eq_true_eq]
          exact fun hEq => hx (hEq ▸ h)
        rw [if_neg hxd, Nat.add_zero, ih (List.nodup_cons.mp hnd).2 h]

end Pipeline

namespace Pipeline

/-- **C9.** For every lawful pseudo-random generator and seed state, every
RCBD schedule generated from duplicate-free I/O-method and database-size
lists with replicate count ≥ 1 contains exactly `replicates` rows in
each (db_size, io_method) treatment cell: the balance invariant holds
regardless of the seed. -/
theorem c9_rcbd_balance {σ : Type} (R : Rng σ) (s0 : σ)
    (io : List String) (db : List ℚ) (reps : ℕ) (d : ℚ) (im : String)
    (hR : R.Lawful) (hio : io.Nodup) (hdb : db.Nodup)
    (hd : d ∈ db) (him : im ∈ io) (hreps : 1 ≤ reps) :
    ((generateRcbdSchedule R (generateTreatmentCombinations io db reps) s0).1).countP
      (fun r => decide (r.treatment.db_size_gb = d) &&
        decide (r.treatment.io_method = im)) = reps := by
  show (addRunOrder 1 (rcbdBlocks R (generateTreatmentCombinations io db reps)
      (R.shuffle s0 (uniqueKeepFirst []
        ((generateTreatmentCombinations io db reps).map (·.db_size_gb)))).1
      (R.shuffle s0 (uniqueKeepFirst []
        ((generateTreatmentCombinations io db reps).map (·.db_size_gb)))).2 1).1).countP
      (fun r => decide (r.treatment.db_size_gb = d) &&
        decide (r.treatment.io_method = im)) = reps
  rw [countP_addRunOrder, countP_rcbdBlocks R hR, sum_map_ite,
    List.Perm.countP_eq _ (hR ℚ s0 (uniqueKeepFirst []
      ((generateTreatmentCombinations io db reps).map (·.db_size_gb)))),
    countP_uniqueKeepFirst,
    if_pos ⟨mem_map_db_treatments d im io db reps hd him hreps, List.not_mem_nil d⟩,
    countP_treatments, countP_eq_one_of_nodup d db hdb hd,
    countP_eq_one_of_nodup im io hio him]
  ring

/-- Witness for C9 with the identity generator and concrete parameters:
the cell (1 GB, "sync") of a 2-replicate design over two sizes and two
methods holds exactly 2 rows. -/
theorem c9_rcbd_balance_witness :
    idRng.Lawful ∧ (["sync", "iouring"] : List String).Nodup ∧
    ([1, 10] : List ℚ).Nodup ∧ (1 : ℚ) ∈ ([1, 10] : List ℚ) ∧
    "sync" ∈ ["sync", "iouring"] ∧ 1 ≤ 2 ∧
    ((generateRcbdSchedule idRng
        (generateTreatmentCombinations ["sync", "iouring"] [1, 10] 2) ()).1).countP
      (fun r => decide (r.treatment.db_size_gb = 1) &&
        decide (r.treatment.io_method = "sync")) = 2 :=
  ⟨fun _ _ l => List.Perm.refl l, by decide, by decide, by decide, by decide,
    by decide,
    c9_rcbd_balance idRng () ["sync", "iouring"] [1, 10] 2 1 "sync"
      (fun _ _ l => List.Perm.refl l) (by decide) (by decide) (by decide)
      (by decide) (by decide)⟩

end Pipeline
